import Mathlib

/-!
OPAQUE message layer (cloudflare/opaque-core): binary framing and dispatch.

A shallow embedding of `opaque/core_messages.go`, `opaque/request_messages.go`
and the parts of `common/errors.go` they use, with the properties of the
message codec proved over it.

Conventions of the embedding:
* a Go `[]byte` is a `List (Fin 256)`; a nil slice and an empty slice are the
  same list;
* a Go `(T, error)` result is an `Except GoError T`;
* a Go error value is a tree `GoError`; a nil error is the absence of one;
* `Unmarshal` methods return the new value of the receiver together with the
  number of bytes read.
-/

namespace OpaqueCore

/-! ## Bytes -/

/-- One octet. -/
abbrev Byte := Fin 256

/-- A Go byte slice. -/
abbrev Bytes := List Byte

/-- Go conversion `byte(n)` of an unsigned integer: the low eight bits. -/
def byteOf (n : Nat) : Byte := ⟨n % 256, Nat.mod_lt n (by decide)⟩

deriving instance DecidableEq for Except

/-! ## Errors (`common/errors.go`, `github.com/pkg/errors`) -/

/-- Library sentinel `common.Error`, declared `type Error uint8`. -/
abbrev Error := Fin 256

def ErrorNoError : Error := 0
def ErrorUnrecognizedMessage : Error := 1
def ErrorNoPasswordTable : Error := 2
def ErrorUserNotRegistered : Error := 3
def ErrorUserAlreadyRegistered : Error := 4
def ErrorHmacTagInvalid : Error := 5
def ErrorForbiddenPolicy : Error := 6
def ErrorUnexpectedData : Error := 7
def ErrorBadEnvelope : Error := 8
def ErrorNotFound : Error := 9
def ErrorOtherError : Error := 10

/-- Go error values that occur in this package.
* `sentinel e`: a `common.Error` value;
* `withError cause err`: a `*common.withError`;
* `withStack inner`: the `*withStack` of `github.com/pkg/errors` (the recorded
  call stack is not modelled);
* `withMessage cause msg`: the `*withMessage` of `github.com/pkg/errors`;
* `foreign text`: any other error, with no `Is`, `Unwrap` or `Cause` method,
  such as the ones made by `fmt.Errorf`. -/
inductive GoError where
  | sentinel (e : Error)
  | withError (cause err : GoError)
  | withStack (inner : GoError)
  | withMessage (cause : GoError) (msg : String)
  | foreign (text : String)
  deriving DecidableEq

/-- Method `Error.Is` (errors.go): `return e == target.(Error)`. The type
assertion is unchecked, so a target that is not a `common.Error` makes the call
panic; `none` stands for that panic. -/
def Error.Is (e : Error) (target : GoError) : Option Bool :=
  match target with
  | GoError.sentinel t => some (decide (e = t))
  | _ => none

/-- Function `errors.Is` of the standard library (to which `pkg/errors.Is`
delegates) for a non-nil error and a non-nil target, `none` standing for a
panic. Each round of its loop compares the current error with the target,
then calls the error's own `Is` method when it has one, then follows `Unwrap`.
The comparison `err == target` of two pointer-typed errors is rendered by
structural equality. `withError.Is` is
`errors.Is(we.cause, target) || errors.Is(we.err, target)`; after it returns
false the loop unwraps to `we.cause`, which was already searched.
The function is exact when the target is a `common.Error`, a value type. For
any other target it takes two errors of the same shape and text for one and
the same error, and it takes every error of another package to have no `Is`
and no `Unwrap` method; `errorsIsWrap` lifts both limits for the errors made
by `Wrap`. -/
def errorsIs (err target : GoError) : Option Bool :=
  if err = target then some true
  else
    match err with
    | GoError.sentinel e =>
      match Error.Is e target with
      | none => none
      | some true => some true
      | some false => some false
    | GoError.withError cause inner =>
      match errorsIs cause target with
      | none => none
      | some true => some true
      | some false =>
        match errorsIs inner target with
        | none => none
        | some true => some true
        | some false => some false
    | GoError.withStack inner => errorsIs inner target
    | GoError.withMessage cause _ => errorsIs cause target
    | GoError.foreign _ => some false

/-! ## The TLS-syntax codec (`github.com/tatianab/mint/syntax`) -/

namespace Mint

/-- Options read from a `tls:"head=H,min=A,max=B"` struct tag; an option that
is not written is zero. -/
structure FieldOpts where
  head : Nat
  min : Nat
  max : Nat
  deriving DecidableEq

/-- Modelled from the spec: the length header written by the slice encoder of
the external TLS-syntax codec (`syntax.Marshal`, not under src/): the length
`n` on `head` bytes, most significant byte first. -/
def putLength : Nat → Nat → Bytes
  | 0, _ => []
  | h + 1, n => byteOf (n >>> (8 * h)) :: putLength h n

/-- Modelled from the spec: the value of a length header read by the slice
decoder of the external TLS-syntax codec, big-endian. -/
def getLength (hdr : Bytes) : Nat :=
  hdr.foldl (fun acc b => (acc <<< 8) + b.val) 0

/-- Modelled from the spec: encoding of one variable-length byte field by the
external TLS-syntax codec (`syntax.Marshal`, not under src/). The field is
written as a `head`-byte big-endian length followed by the bytes; encoding
fails when the length is above a declared maximum, does not fit the header,
or is below the declared minimum. -/
def encodeSlice (o : FieldOpts) (data : Bytes) : Except GoError Bytes :=
  let n := data.length
  if o.head = 0 then
    Except.error (GoError.foreign "Cannot encode a slice without a header length")
  else if 0 < o.max ∧ o.max < n then
    Except.error (GoError.foreign "Encoded length more than max")
  else if 0 < n >>> (8 * o.head) then
    Except.error (GoError.foreign "Encoded length too long for header length")
  else if n < o.min then
    Except.error (GoError.foreign "Encoded length less than min")
  else
    Except.ok (putLength o.head n ++ data)

/-- Modelled from the spec: decoding of one variable-length byte field by the
external TLS-syntax codec (`syntax.Unmarshal`, not under src/). Reads the
`head`-byte length, checks it against the declared bounds, then takes that
many bytes; fails when the header or the declared data is not all there.
Returns the field and the unread rest of the buffer. -/
def decodeSlice (o : FieldOpts) (d : Bytes) : Except GoError (Bytes × Bytes) :=
  if o.head = 0 then
    Except.error (GoError.foreign "Cannot decode a slice without a header length")
  else
    let hdr := d.take o.head
    if hdr.length ≠ o.head then
      Except.error (GoError.foreign "Not enough data to read header")
    else
      let length := getLength hdr
      let d1 := d.drop o.head
      if 0 < o.max ∧ o.max < length then
        Except.error (GoError.foreign "Length of vector exceeds declared max")
      else if length < o.min then
        Except.error (GoError.foreign "Length of vector below declared min")
      else
        let data := d1.take length
        if data.length ≠ length then
          Except.error (GoError.foreign "Available data less than declared length")
        else
          Except.ok (data, d1.drop length)

/-- Modelled from the spec: encoding of a `uint8`-kinded field by the external
TLS-syntax codec: the one byte. -/
def encodeUint8 (b : Byte) : Bytes := [b]

/-- Modelled from the spec: decoding of a `uint8`-kinded field by the external
TLS-syntax codec: one byte, failing on an empty buffer. -/
def decodeUint8 (d : Bytes) : Except GoError (Byte × Bytes) :=
  match d with
  | [] => Except.error (GoError.foreign "Insufficient data to read uint")
  | b :: rest => Except.ok (b, rest)

end Mint

/-! ## `opaque/request_messages.go`: CredentialRequest -/

/-- ProtocolMessageType is declared `type ProtocolMessageType byte`. -/
abbrev ProtocolMessageType := Byte

def ProtocolMessageTypeRegistrationRequest : ProtocolMessageType := 1
def ProtocolMessageTypeRegistrationResponse : ProtocolMessageType := 2
def ProtocolMessageTypeRegistrationUpload : ProtocolMessageType := 3
def ProtocolMessageTypeCredentialRequest : ProtocolMessageType := 4
def ProtocolMessageTypeCredentialResponse : ProtocolMessageType := 5

/-- CredentialRequest struct:
`UserID []byte tls:"head=2"`, `OprfData []byte tls:"head=2,min=1"`. -/
structure CredentialRequest where
  UserID : Bytes
  OprfData : Bytes
  deriving DecidableEq

/-- Method `(*CredentialRequest).Marshal`: `syntax.Marshal(cr)`, which encodes
the fields in declaration order under their tags. -/
def CredentialRequest.Marshal (cr : CredentialRequest) : Except GoError Bytes := do
  let userID ← Mint.encodeSlice ⟨2, 0, 0⟩ cr.UserID
  let oprfData ← Mint.encodeSlice ⟨2, 1, 0⟩ cr.OprfData
  pure (userID ++ oprfData)

/-- Method `(*CredentialRequest).Unmarshal`: `syntax.Unmarshal(data, cr)`,
which decodes the fields in declaration order and reports the bytes read.
The result is the receiver after a successful call. -/
def CredentialRequest.Unmarshal (data : Bytes) : Except GoError (CredentialRequest × Nat) := do
  let (userID, r1) ← Mint.decodeSlice ⟨2, 0, 0⟩ data
  let (oprfData, r2) ← Mint.decodeSlice ⟨2, 1, 0⟩ r1
  pure (⟨userID, oprfData⟩, data.length - r2.length)

/-- Method `(*CredentialRequest).Type`. -/
def CredentialRequest.Type (_ : CredentialRequest) : ProtocolMessageType :=
  ProtocolMessageTypeCredentialRequest

/-! ## Collaborators: public keys and envelopes -/

/-- The serialize/parse pair of the asymmetric key provider for keys of type
`Key`: `x509.MarshalPKIXPublicKey` on a key that is present, and
`x509.ParsePKIXPublicKey`. Both belong to the Go standard library and are
taken as parameters. -/
structure PKIX (Key : Type) where
  marshal : Key → Except GoError Bytes
  parse : Bytes → Except GoError Key

/-- Function `x509.MarshalPKIXPublicKey` applied to a `crypto.PublicKey`
interface value, which may be nil (`none`): a nil key is of no supported key
type and is refused. -/
def MarshalPKIXPublicKey {Key : Type} (P : PKIX Key) : Option Key → Except GoError Bytes
  | none => Except.error (GoError.foreign "x509: unsupported public key type: <nil>")
  | some k => P.marshal k

/-- Envelope struct, with the four fields that `json_encoding.go` reads and
writes. -/
structure Envelope where
  Nonce : Bytes
  EncryptedCreds : Bytes
  AuthenticatedCreds : Bytes
  AuthTag : Bytes
  deriving DecidableEq

/-- The binary codec of `Envelope` as a nested struct of the TLS-syntax codec.
The struct tags of `Envelope` are declared outside src/, so its field codec is
a parameter: `encode` gives the bytes of an envelope, `decode` reads one from
the front of a buffer and returns it with the unread rest. -/
structure EnvelopeCodec where
  encode : Envelope → Except GoError Bytes
  decode : Bytes → Except GoError (Envelope × Bytes)

/-- Modelled from the spec: the binary codec of `Envelope` (envelope.go is not
under src/), "composite fields recursively apply the same discipline": each of
the four byte fields carries a 2-byte big-endian length. -/
def Envelope.specCodec : EnvelopeCodec where
  encode := fun env => do
    let a ← Mint.encodeSlice ⟨2, 0, 0⟩ env.Nonce
    let b ← Mint.encodeSlice ⟨2, 0, 0⟩ env.EncryptedCreds
    let c ← Mint.encodeSlice ⟨2, 0, 0⟩ env.AuthenticatedCreds
    let d ← Mint.encodeSlice ⟨2, 0, 0⟩ env.AuthTag
    pure (a ++ b ++ c ++ d)
  decode := fun data => do
    let (a, r1) ← Mint.decodeSlice ⟨2, 0, 0⟩ data
    let (b, r2) ← Mint.decodeSlice ⟨2, 0, 0⟩ r1
    let (c, r3) ← Mint.decodeSlice ⟨2, 0, 0⟩ r2
    let (d, r4) ← Mint.decodeSlice ⟨2, 0, 0⟩ r3
    pure (⟨a, b, c, d⟩, r4)

/-! ## `opaque/request_messages.go`: CredentialResponse -/

/-- CredentialResponse struct. `Envelope` is a pointer and `serverPublicKey`
an interface value; either may be nil (`none`). -/
structure CredentialResponse (Key : Type) where
  OprfData : Bytes
  Envelope : Option Envelope
  serverPublicKey : Option Key

/-- Method `(*CredentialResponse).Type`. -/
def CredentialResponse.Type {Key : Type} (_ : CredentialResponse Key) : ProtocolMessageType :=
  ProtocolMessageTypeCredentialResponse

/-- Struct credentialResponseInner:
`OprfData []byte tls:"head=2,min=1"`, `Envelope *Envelope`,
`ServerPublicKey []byte tls:"head=2"`. -/
structure credentialResponseInner where
  OprfData : Bytes
  Envelope : Option Envelope
  ServerPublicKey : Bytes
  deriving DecidableEq

/-- The call `syntax.Marshal(toMarshal)` on a `*credentialResponseInner`: the
three fields in declaration order; a nil pointer field cannot be encoded. -/
def credentialResponseInner.Marshal (E : EnvelopeCodec) (cri : credentialResponseInner) :
    Except GoError Bytes := do
  let oprfData ← Mint.encodeSlice ⟨2, 1, 0⟩ cri.OprfData
  let envelope ←
    match cri.Envelope with
    | none => Except.error (GoError.foreign "Cannot encode nil pointer")
    | some env => E.encode env
  let serverPublicKey ← Mint.encodeSlice ⟨2, 0, 0⟩ cri.ServerPublicKey
  pure (oprfData ++ envelope ++ serverPublicKey)

/-- The call `syntax.Unmarshal(data, cri)` on a fresh `*credentialResponseInner`:
the three fields in declaration order, with the number of bytes read. -/
def credentialResponseInner.Unmarshal (E : EnvelopeCodec) (data : Bytes) :
    Except GoError (credentialResponseInner × Nat) := do
  let (oprfData, r1) ← Mint.decodeSlice ⟨2, 1, 0⟩ data
  let (envelope, r2) ← E.decode r1
  let (serverPublicKey, r3) ← Mint.decodeSlice ⟨2, 0, 0⟩ r2
  pure (⟨oprfData, some envelope, serverPublicKey⟩, data.length - r3.length)

/-- Method `(*CredentialResponse).Marshal`. -/
def CredentialResponse.Marshal {Key : Type} (P : PKIX Key) (E : EnvelopeCodec)
    (cr : CredentialResponse Key) : Except GoError Bytes := do
  let rawPublicKey ← MarshalPKIXPublicKey P cr.serverPublicKey
  let toMarshal : credentialResponseInner := ⟨cr.OprfData, cr.Envelope, rawPublicKey⟩
  credentialResponseInner.Marshal E toMarshal

/-- Method `(*CredentialResponse).Unmarshal`, in state-passing form: from the
receiver before the call and the input, the receiver after the call and the
Go result pair (bytes read, error). -/
def CredentialResponse.Unmarshal {Key : Type} (P : PKIX Key) (E : EnvelopeCodec)
    (cr : CredentialResponse Key) (data : Bytes) :
    CredentialResponse Key × Nat × Option GoError :=
  match credentialResponseInner.Unmarshal E data with
  | Except.error err => (cr, 0, some err)
  | Except.ok (cri, bytesRead) =>
    match P.parse cri.ServerPublicKey with
    | Except.error err => (cr, 0, some err)
    | Except.ok publicKey =>
      (⟨cri.OprfData, cri.Envelope, some publicKey⟩, bytesRead, none)

/-! ## Registration messages (declared outside src/) -/

/-- Modelled from the spec: `CredentialType`, a one-byte tag (the
interchange codec converts it with `byte(s)` and `CredentialType(s)`). -/
abbrev CredentialType := Byte

/-- CredentialEncodingPolicy struct, with the two fields that
`json_encoding.go` reads and writes. -/
structure CredentialEncodingPolicy where
  SecretTypes : List CredentialType
  CleartextTypes : List CredentialType
  deriving DecidableEq

/-- RegistrationRequest struct, with the fields used by `json_encoding.go`. -/
structure RegistrationRequest where
  UserID : Bytes
  OprfData : Bytes
  deriving DecidableEq

/-- RegistrationResponse struct, with the fields used by `json_encoding.go`. -/
structure RegistrationResponse (Key : Type) where
  OprfData : Bytes
  ServerPublicKey : Option Key
  CredentialEncodingPolicy : Option CredentialEncodingPolicy

/-- RegistrationUpload struct, with the fields used by `json_encoding.go`. -/
structure RegistrationUpload (Key : Type) where
  Envelope : Option Envelope
  ClientPublicKey : Option Key

/-- The `Marshal` methods of the three registration messages, which are
declared outside src/ and taken as parameters. -/
structure RegistrationCodec (Key : Type) where
  marshalRequest : RegistrationRequest → Except GoError Bytes
  marshalResponse : RegistrationResponse Key → Except GoError Bytes
  marshalUpload : RegistrationUpload Key → Except GoError Bytes

/-! ## `opaque/core_messages.go` -/

/-- ProtocolMessage struct:
`MessageType ProtocolMessageType`, `MessageBodyRaw []byte tls:"head=3"`. -/
structure ProtocolMessage where
  MessageType : ProtocolMessageType
  MessageBodyRaw : Bytes
  deriving DecidableEq

/-- Method `(*ProtocolMessage).Marshal`: `syntax.Marshal(msg)`. -/
def ProtocolMessage.Marshal (msg : ProtocolMessage) : Except GoError Bytes := do
  let body ← Mint.encodeSlice ⟨3, 0, 0⟩ msg.MessageBodyRaw
  pure (Mint.encodeUint8 msg.MessageType ++ body)

/-- Method `(*ProtocolMessage).Unmarshal`: `syntax.Unmarshal(data, msg)`. The
result is the receiver after a successful call, with the bytes read. -/
def ProtocolMessage.Unmarshal (data : Bytes) : Except GoError (ProtocolMessage × Nat) := do
  let (messageType, r1) ← Mint.decodeUint8 data
  let (body, r2) ← Mint.decodeSlice ⟨3, 0, 0⟩ r1
  pure (⟨messageType, body⟩, data.length - r2.length)

/-- The values of interface `ProtocolMessageBody`: the five message structs
that implement it. -/
inductive ProtocolMessageBody (Key : Type) where
  | registrationRequest (v : RegistrationRequest)
  | registrationResponse (v : RegistrationResponse Key)
  | registrationUpload (v : RegistrationUpload Key)
  | credentialRequest (v : CredentialRequest)
  | credentialResponse (v : CredentialResponse Key)

/-- Modelled from the spec: method `Type()` of RegistrationRequest (its
methods are declared outside src/): the variant reports its own tag. -/
def RegistrationRequest.Type (_ : RegistrationRequest) : ProtocolMessageType :=
  ProtocolMessageTypeRegistrationRequest

/-- Modelled from the spec: method `Type()` of RegistrationResponse (its
methods are declared outside src/): the variant reports its own tag. -/
def RegistrationResponse.Type {Key : Type} (_ : RegistrationResponse Key) :
    ProtocolMessageType :=
  ProtocolMessageTypeRegistrationResponse

/-- Modelled from the spec: method `Type()` of RegistrationUpload (its
methods are declared outside src/): the variant reports its own tag. -/
def RegistrationUpload.Type {Key : Type} (_ : RegistrationUpload Key) :
    ProtocolMessageType :=
  ProtocolMessageTypeRegistrationUpload

/-- Interface method `Type()`, dispatched on the dynamic type. -/
def ProtocolMessageBody.Type {Key : Type} : ProtocolMessageBody Key → ProtocolMessageType
  | registrationRequest v => v.Type
  | registrationResponse v => v.Type
  | registrationUpload v => v.Type
  | credentialRequest v => v.Type
  | credentialResponse v => v.Type

/-- Interface method `Marshal()`, dispatched on the dynamic type. -/
def ProtocolMessageBody.Marshal {Key : Type} (P : PKIX Key) (E : EnvelopeCodec)
    (R : RegistrationCodec Key) : ProtocolMessageBody Key → Except GoError Bytes
  | registrationRequest v => R.marshalRequest v
  | registrationResponse v => R.marshalResponse v
  | registrationUpload v => R.marshalUpload v
  | credentialRequest v => v.Marshal
  | credentialResponse v => v.Marshal P E

/-- The table `ProtocolMessageTypeToStringMap` (json_encoding.go) as read by
`ProtocolMessageType.String`: a tag that is not a key gives the empty
string. -/
def ProtocolMessageType.String (pmt : ProtocolMessageType) : String :=
  if pmt = ProtocolMessageTypeRegistrationRequest then "OPAQUE Registration Request"
  else if pmt = ProtocolMessageTypeRegistrationResponse then "OPAQUE Registration Response"
  else if pmt = ProtocolMessageTypeRegistrationUpload then "OPAQUE Registration Upload"
  else if pmt = ProtocolMessageTypeCredentialRequest then "OPAQUE Credential Request"
  else if pmt = ProtocolMessageTypeCredentialResponse then "OPAQUE Credential Response"
  else ""

/-- Function `errors.Wrapf` of `github.com/pkg/errors` on a non-nil error, the
format already applied: a `withMessage` inside a `withStack`. -/
def errorsWrapf (err : GoError) (msg : String) : GoError :=
  GoError.withStack (GoError.withMessage err msg)

/-- Method `(*ProtocolMessage).ToBody`. On success the body is the zero value
made by `new` for the struct of the tag; on failure no body is returned. -/
def ProtocolMessage.ToBody {Key : Type} (msg : ProtocolMessage) :
    Except GoError (ProtocolMessageBody Key) :=
  if msg.MessageType = ProtocolMessageTypeRegistrationRequest then
    Except.ok (ProtocolMessageBody.registrationRequest ⟨[], []⟩)
  else if msg.MessageType = ProtocolMessageTypeRegistrationResponse then
    Except.ok (ProtocolMessageBody.registrationResponse ⟨[], none, none⟩)
  else if msg.MessageType = ProtocolMessageTypeRegistrationUpload then
    Except.ok (ProtocolMessageBody.registrationUpload ⟨none, none⟩)
  else if msg.MessageType = ProtocolMessageTypeCredentialRequest then
    Except.ok (ProtocolMessageBody.credentialRequest ⟨[], []⟩)
  else if msg.MessageType = ProtocolMessageTypeCredentialResponse then
    Except.ok (ProtocolMessageBody.credentialResponse ⟨[], none, none⟩)
  else
    Except.error (errorsWrapf (GoError.sentinel ErrorUnrecognizedMessage)
      ("message type " ++ ProtocolMessageType.String msg.MessageType))

/-- Function `ProtocolMessageFromBody`. -/
def ProtocolMessageFromBody {Key : Type} (P : PKIX Key) (E : EnvelopeCodec)
    (R : RegistrationCodec Key) (body : ProtocolMessageBody Key) :
    Except GoError ProtocolMessage :=
  match body.Marshal P E R with
  | Except.error err => Except.error err
  | Except.ok bodyRaw => Except.ok ⟨body.Type, bodyRaw⟩

/-- The dynamic type of an interface value, as the position of its struct
among the five implementations. -/
def ProtocolMessageBody.variant {Key : Type} : ProtocolMessageBody Key → Fin 5
  | registrationRequest _ => 0
  | registrationResponse _ => 1
  | registrationUpload _ => 2
  | credentialRequest _ => 3
  | credentialResponse _ => 4


/-! ## Sample collaborators, for evaluating the codec on concrete messages -/

/-- A sample key provider over keys that are byte strings: the serialization
of a key is the key behind the byte `0x30`, and parsing removes that byte and
refuses anything else. -/
def samplePKIX : PKIX Bytes where
  marshal := fun k => Except.ok (48 :: k)
  parse := fun s =>
    match s with
    | [] => Except.error (GoError.foreign "asn1: syntax error")
    | b :: k =>
      if b = 48 then Except.ok k else Except.error (GoError.foreign "asn1: syntax error")

/-- A sample set of registration marshallers, each writing its `OprfData` or
nothing. -/
def sampleRegistrationCodec : RegistrationCodec Bytes where
  marshalRequest := fun v => Except.ok v.OprfData
  marshalResponse := fun v => Except.ok v.OprfData
  marshalUpload := fun _ => Except.ok []

/-! ## `encoding/json` on structs of byte slices (`opaque/json_encoding.go`) -/

/-- A JSON text as `json.Unmarshal` sees it when the target is a struct whose
fields are byte slices: either an object whose members carry byte strings, or
a text that is refused (malformed, or not of that shape). A member value is
the byte string it stands for; its base64 spelling and `null`, which
stands for the nil slice, are not told apart. -/
inductive JSONDoc where
  | object (members : List (String × Bytes))
  | invalid
  deriving DecidableEq

/-- Function `json.Marshal` of the standard library on a pointer to a struct
whose fields are all byte slices, given as the list of field names and values
in declaration order: one member per field, named after the field. -/
def jsonMarshal (fields : List (String × Bytes)) : Except GoError JSONDoc :=
  Except.ok (JSONDoc.object fields)

/-- Function `json.Unmarshal` of the standard library into a struct whose
fields are byte slices: the members of the object, or an error. -/
def jsonUnmarshal (b : JSONDoc) : Except GoError (List (String × Bytes)) :=
  match b with
  | JSONDoc.object members => Except.ok members
  | JSONDoc.invalid => Except.error (GoError.foreign "json: cannot unmarshal")

/-- The value that `json.Unmarshal` leaves in the byte-slice field `name` of a
fresh struct: the last member of that name, or the nil slice when there is
none. -/
def jsonField (members : List (String × Bytes)) (name : String) : Bytes :=
  match members.reverse.lookup name with
  | some v => v
  | none => []

/-- Method `(*RegistrationRequest).MarshalJSON`: `json.Marshal` of a
`registrationRequestJSON` with fields `UserID`, `OprfData`. -/
def RegistrationRequest.MarshalJSON (rr : RegistrationRequest) : Except GoError JSONDoc :=
  jsonMarshal [("UserID", rr.UserID), ("OprfData", rr.OprfData)]

/-- Function `UnmarshalRegistrationRequestJSON`: `json.Unmarshal` straight into
a fresh `RegistrationRequest`, whose exported fields are `UserID` and
`OprfData`. -/
def UnmarshalRegistrationRequestJSON (b : JSONDoc) : Except GoError RegistrationRequest :=
  match jsonUnmarshal b with
  | Except.error err => Except.error err
  | Except.ok members => Except.ok ⟨jsonField members "UserID", jsonField members "OprfData"⟩

/-- Method `(*CredentialRequest).MarshalJSON`: `json.Marshal` of a
`credentialRequestJSON` with fields `UserID`, `OprfData`. -/
def CredentialRequest.MarshalJSON (cr : CredentialRequest) : Except GoError JSONDoc :=
  jsonMarshal [("UserID", cr.UserID), ("OprfData", cr.OprfData)]

/-- Function `UnmarshalCredentialRequestJSON`: `json.Unmarshal` straight into a
fresh `CredentialRequest`. -/
def UnmarshalCredentialRequestJSON (b : JSONDoc) : Except GoError CredentialRequest :=
  match jsonUnmarshal b with
  | Except.error err => Except.error err
  | Except.ok members => Except.ok ⟨jsonField members "UserID", jsonField members "OprfData"⟩

/-- Method `(*RegistrationResponse).MarshalJSON`. The key is serialized first;
then the two type lists are read through the policy pointer, and a nil policy
makes that a run-time panic (`none`); each type is converted with `byte(s)`. -/
def RegistrationResponse.MarshalJSON {Key : Type} (P : PKIX Key)
    (rr : RegistrationResponse Key) : Option (Except GoError JSONDoc) :=
  match MarshalPKIXPublicKey P rr.ServerPublicKey with
  | Except.error err => some (Except.error err)
  | Except.ok rawPubKey =>
    match rr.CredentialEncodingPolicy with
    | none => none
    | some policy =>
      let secTypes : Bytes := policy.SecretTypes.map (fun s => byteOf s.val)
      let clearTypes : Bytes := policy.CleartextTypes.map (fun cl => byteOf cl.val)
      some (jsonMarshal [("OprfData", rr.OprfData), ("ServerPublicKey", rawPubKey),
        ("SecretTypes", secTypes), ("CleartextTypes", clearTypes)])

/-- Function `UnmarshalRegistrationResponseJSON`: decodes a
`registrationResponseJSON`, parses the key, and converts each byte of the two
arrays with `CredentialType(s)`. -/
def UnmarshalRegistrationResponseJSON {Key : Type} (P : PKIX Key) (b : JSONDoc) :
    Except GoError (RegistrationResponse Key) :=
  match jsonUnmarshal b with
  | Except.error err => Except.error err
  | Except.ok members =>
    match P.parse (jsonField members "ServerPublicKey") with
    | Except.error err => Except.error err
    | Except.ok pubKey =>
      let secTypes : List CredentialType :=
        (jsonField members "SecretTypes").map (fun s => byteOf s.val)
      let clearTypes : List CredentialType :=
        (jsonField members "CleartextTypes").map (fun cl => byteOf cl.val)
      Except.ok ⟨jsonField members "OprfData", some pubKey, some ⟨secTypes, clearTypes⟩⟩

/-- Method `(*RegistrationUpload).MarshalJSON`. The key is serialized first;
then the envelope fields are read through the envelope pointer, and a nil
envelope makes that a run-time panic (`none`). -/
def RegistrationUpload.MarshalJSON {Key : Type} (P : PKIX Key)
    (rr : RegistrationUpload Key) : Option (Except GoError JSONDoc) :=
  match MarshalPKIXPublicKey P rr.ClientPublicKey with
  | Except.error err => some (Except.error err)
  | Except.ok rawPubKey =>
    match rr.Envelope with
    | none => none
    | some env =>
      some (jsonMarshal [("UserPublicKey", rawPubKey), ("Nonce", env.Nonce),
        ("EncryptedCreds", env.EncryptedCreds),
        ("AuthenticatedCreds", env.AuthenticatedCreds), ("AuthTag", env.AuthTag)])

/-- Function `UnmarshalRegistrationUploadJSON`. -/
def UnmarshalRegistrationUploadJSON {Key : Type} (P : PKIX Key) (b : JSONDoc) :
    Except GoError (RegistrationUpload Key) :=
  match jsonUnmarshal b with
  | Except.error err => Except.error err
  | Except.ok members =>
    match P.parse (jsonField members "UserPublicKey") with
    | Except.error err => Except.error err
    | Except.ok pubKey =>
      let env : Envelope := ⟨jsonField members "Nonce", jsonField members "EncryptedCreds",
        jsonField members "AuthenticatedCreds", jsonField members "AuthTag"⟩
      Except.ok ⟨some env, some pubKey⟩

/-- Method `(*CredentialResponse).MarshalJSON`. The key is serialized first;
then the envelope fields are read through the envelope pointer, and a nil
envelope makes that a run-time panic (`none`). -/
def CredentialResponse.MarshalJSON {Key : Type} (P : PKIX Key)
    (cr : CredentialResponse Key) : Option (Except GoError JSONDoc) :=
  match MarshalPKIXPublicKey P cr.serverPublicKey with
  | Except.error err => some (Except.error err)
  | Except.ok rawPubKey =>
    match cr.Envelope with
    | none => none
    | some env =>
      some (jsonMarshal [("OprfData", cr.OprfData), ("Nonce", env.Nonce),
        ("EncryptedCreds", env.EncryptedCreds),
        ("AuthenticatedCreds", env.AuthenticatedCreds), ("AuthTag", env.AuthTag),
        ("ServerPublicKey", rawPubKey)])

/-- Function `UnmarshalCredentialResponseJSON`. -/
def UnmarshalCredentialResponseJSON {Key : Type} (P : PKIX Key) (b : JSONDoc) :
    Except GoError (CredentialResponse Key) :=
  match jsonUnmarshal b with
  | Except.error err => Except.error err
  | Except.ok members =>
    match P.parse (jsonField members "ServerPublicKey") with
    | Except.error err => Except.error err
    | Except.ok pubKey =>
      let env : Envelope := ⟨jsonField members "Nonce", jsonField members "EncryptedCreds",
        jsonField members "AuthenticatedCreds", jsonField members "AuthTag"⟩
      Except.ok ⟨jsonField members "OprfData", some env, some pubKey⟩

/-! ## `common/errors.go`: wrapping, text and serialization -/

/-- The table `alertToString`, read as Go reads a map: a code that is not a
key gives the empty string. -/
def alertToString (e : Error) : String :=
  if e = ErrorUnrecognizedMessage then "unrecognized message"
  else if e = ErrorNoPasswordTable then "no record table"
  else if e = ErrorUserNotRegistered then "user is not registered"
  else if e = ErrorUserAlreadyRegistered then "user already registered"
  else if e = ErrorHmacTagInvalid then "hmac verification failed, tags not equal"
  else if e = ErrorForbiddenPolicy then "forbidden credential encoding policy"
  else if e = ErrorUnexpectedData then "unexpected data"
  else if e = ErrorBadEnvelope then "decrypt envelope failed"
  else if e = ErrorNotFound then "not found"
  else ""

/-- Function `errors.WithStack` of `github.com/pkg/errors` on a non-nil
error. -/
def errorsWithStack (err : GoError) : GoError := GoError.withStack err

/-- Method `Error.Wrap`: nil for a nil error (`none`), else a `withError` with
the cause and the sentinel, inside `errors.WithStack`. -/
def Error.Wrap (e : OpaqueCore.Error) (err : Option GoError) : Option GoError :=
  match err with
  | none => none
  | some cause => some (errorsWithStack (GoError.withError cause (GoError.sentinel e)))

/-- The nested wrapping `e1.Wrap(e2.Wrap(... en.Wrap(c)))` of a root cause `c`
under the sentinels `e1 .. en`, outermost first. -/
def wrapAll : List Error → GoError → Option GoError
  | [], c => some c
  | e :: es, c => Error.Wrap e (wrapAll es c)

/-- The sentinels that occur in an error value, through both fields of a
`withError` and through the wrappers of `github.com/pkg/errors`. -/
def GoError.sentinels : GoError → List Error
  | GoError.sentinel e => [e]
  | GoError.withError cause err => cause.sentinels ++ err.sentinels
  | GoError.withStack inner => inner.sentinels
  | GoError.withMessage cause _ => cause.sentinels
  | GoError.foreign _ => []

/-- Function `errors.Cause` of `github.com/pkg/errors` on a non-nil error:
follows `Cause()` as long as the error has that method. -/
def errorsCause : GoError → GoError
  | GoError.sentinel e => GoError.sentinel e
  | GoError.withError cause _ => errorsCause cause
  | GoError.withStack inner => errorsCause inner
  | GoError.withMessage cause _ => errorsCause cause
  | GoError.foreign text => GoError.foreign text

/-- Function `json.Marshal` on a `common.Error`, a `uint8` with no JSON method
of its own: the code as a decimal JSON number. -/
def jsonMarshalError (e : Error) : String := Nat.repr e.val

/-- Method `(*withError).MarshalJSON` on the wrapper with fields `cause` and
`err`: the code of `we.err` when that is a `common.Error`; else the code of
`errors.Cause(we)` when that is one; else the code of `ErrorOtherError`. -/
def withErrorMarshalJSON (cause err : GoError) : Except GoError String :=
  match err with
  | GoError.sentinel latestErr => Except.ok (jsonMarshalError latestErr)
  | _ =>
    match errorsCause (GoError.withError cause err) with
    | GoError.sentinel e => Except.ok (jsonMarshalError e)
    | _ => Except.ok (jsonMarshalError ErrorOtherError)

/-- The type switch of `MarshalErrorAsJSON` on a non-nil error: a
`common.Error` is marshalled as its code, a `*withError` through its
`MarshalJSON`, any other error with a `Cause` method is replaced by its cause,
and the rest gives `ErrorOtherError`. -/
def marshalErrorAsJSONGo : GoError → Except GoError String
  | GoError.sentinel e => Except.ok (jsonMarshalError e)
  | GoError.withError cause err => withErrorMarshalJSON cause err
  | GoError.withStack inner => marshalErrorAsJSONGo inner
  | GoError.withMessage cause _ => marshalErrorAsJSONGo cause
  | GoError.foreign _ => Except.ok (jsonMarshalError ErrorOtherError)

/-- Function `MarshalErrorAsJSON`; a nil error (`none`) matches no case of the
type switch. -/
def MarshalErrorAsJSON (target : Option GoError) : Except GoError String :=
  match target with
  | none => Except.ok (jsonMarshalError ErrorOtherError)
  | some t => marshalErrorAsJSONGo t

set_option linter.dupNamespace false

/-- Method `Error.Error`: `return alertToString[e]`. -/
def Error.Error (e : OpaqueCore.Error) : String := alertToString e

/-- Method `Error()` of every error value. `withError.Error` is
`fmt.Sprintf("%s: %s", we.err, we.cause)`, where `%s` prints an error by its
`Error()` text; `withStack` passes on the text of the error it holds;
`withMessage` prints its message, `": "` and the text of its cause. -/
def GoError.Error : GoError → String
  | GoError.sentinel e => Error.Error e
  | GoError.withError cause err => err.Error ++ ": " ++ cause.Error
  | GoError.withStack inner => inner.Error
  | GoError.withMessage cause msg => msg ++ ": " ++ cause.Error
  | GoError.foreign text => text

/-! ## Error values: library-free chains, occurrences, nil targets -/

/-- Whether an error value holds no library error at all: it is neither a
`common.Error` nor a `*withError`, and what its `Cause` method returns, when it
has one, is again such an error. -/
def GoError.noLibraryError : GoError → Bool
  | GoError.sentinel _ => false
  | GoError.withError _ _ => false
  | GoError.withStack inner => inner.noLibraryError
  | GoError.withMessage cause _ => cause.noLibraryError
  | GoError.foreign _ => true

/-- The error values that occur in an error value: itself, and what occurs in
the errors it holds (both fields of a `withError`). These are the values that
`errors.Is` can compare with its target. -/
def GoError.nodes : GoError → List GoError
  | GoError.sentinel e => [GoError.sentinel e]
  | GoError.withError cause err =>
    GoError.withError cause err :: (cause.nodes ++ err.nodes)
  | GoError.withStack inner => GoError.withStack inner :: inner.nodes
  | GoError.withMessage cause msg => GoError.withMessage cause msg :: cause.nodes
  | GoError.foreign text => [GoError.foreign text]

/-- Method `Error.Is` called with an `error` interface value that may be nil
(`none`): the type assertion `target.(Error)` panics on the nil interface as
it does on any value that is not a `common.Error`. -/
def Error.IsInterface (e : OpaqueCore.Error) (target : Option GoError) : Option Bool :=
  match target with
  | none => none
  | some t => Error.Is e t

/-- Function `errors.Is` on `e.Wrap(c)` for a non-nil cause `c` of any error
type and a non-nil target, `none` standing for a panic. What the call depends
on outside this library is given: `sameAsWrapped` and `sameAsWrapper` say
whether the target is the very error returned by `Wrap` (the `withStack`), or
the `withError` inside it, and `causeIs` is the outcome of
`errors.Is(c, target)`. The loop of `errors.Is` compares the `withStack` with
the target, finds no `Is` method on it and unwraps to the `withError`;
compares that with the target and calls `withError.Is`, which is
`errors.Is(we.cause, target) || errors.Is(we.err, target)` with `we.err` the
sentinel `e`; when that returns false the loop unwraps to the cause, whose
search was already false. -/
def errorsIsWrap (e : Error) (target : GoError) (sameAsWrapped sameAsWrapper : Bool)
    (causeIs : Option Bool) : Option Bool :=
  if sameAsWrapped then some true
  else if sameAsWrapper then some true
  else
    match causeIs with
    | none => none
    | some true => some true
    | some false =>
      match errorsIs (GoError.sentinel e) target with
      | none => none
      | some true => some true
      | some false => some false

/-! ## Lemmas on the field codec -/

namespace Mint

theorem putLength_length (h n : Nat) : (putLength h n).length = h := by
  induction h with
  | zero => rfl
  | succ h ih => simp [putLength, ih]

theorem foldl_putLength (h n acc : Nat) :
    (putLength h n).foldl (fun a (b : Byte) => (a <<< 8) + b.val) acc
      = acc * 256 ^ h + n % 256 ^ h := by
  induction h generalizing acc with
  | zero => simp [putLength, Nat.mod_one]
  | succ h ih =>
    simp only [putLength, List.foldl_cons, ih, byteOf]
    rw [Nat.mod_pow_succ, Nat.shiftRight_eq_div_pow, Nat.shiftLeft_eq, Nat.pow_mul]
    norm_num
    ring

theorem getLength_putLength (h n : Nat) (hn : n < 256 ^ h) :
    getLength (putLength h n) = n := by
  unfold getLength
  rw [foldl_putLength, Nat.mod_eq_of_lt hn]; simp

theorem shiftRight_pos_iff (n h : Nat) : 0 < n >>> (8 * h) ↔ 256 ^ h ≤ n := by
  rw [Nat.shiftRight_eq_div_pow, Nat.pow_mul]
  norm_num
  exact Nat.div_pos_iff (by positivity)

/-- A field whose length fits the header and respects the minimum is encoded
as header followed by data. -/
theorem encodeSlice_ok (h mn : Nat) (data : Bytes) (hh : h ≠ 0)
    (hfit : data.length < 256 ^ h) (hmin : mn ≤ data.length) :
    encodeSlice ⟨h, mn, 0⟩ data = Except.ok (putLength h data.length ++ data) := by
  have h1 : ¬ 0 < data.length >>> (8 * h) := by
    rw [shiftRight_pos_iff]; omega
  simp [encodeSlice, hh, h1, Nat.not_lt.mpr hmin]

/-- What a successful field encoding implies. -/
theorem encodeSlice_inv (h mn : Nat) (data enc : Bytes)
    (hok : encodeSlice ⟨h, mn, 0⟩ data = Except.ok enc) :
    h ≠ 0 ∧ data.length < 256 ^ h ∧ mn ≤ data.length ∧
      enc = putLength h data.length ++ data := by
  unfold encodeSlice at hok
  simp only [lt_self_iff_false, false_and, if_false] at hok
  split_ifs at hok with h0 h1 h2
  rw [shiftRight_pos_iff] at h1
  refine ⟨h0, by omega, by omega, ?_⟩
  injection hok with h3
  exact h3.symm

/-- Decoding a field from its encoding followed by anything gives back the
field and leaves what followed. -/
theorem decodeSlice_append (h mn : Nat) (data rest : Bytes) (hh : h ≠ 0)
    (hfit : data.length < 256 ^ h) (hmin : mn ≤ data.length) :
    decodeSlice ⟨h, mn, 0⟩ (putLength h data.length ++ data ++ rest)
      = Except.ok (data, rest) := by
  have hl := putLength_length h data.length
  have htake : List.take h (putLength h data.length ++ data ++ rest)
      = putLength h data.length := by
    rw [List.append_assoc, List.take_append_of_le_length (by omega)]
    exact List.take_of_length_le (by omega)
  have hdrop : List.drop h (putLength h data.length ++ data ++ rest) = data ++ rest := by
    rw [List.append_assoc, List.drop_append_of_le_length (by omega)]
    rw [List.drop_of_length_le (by omega)]; rfl
  unfold decodeSlice
  simp only [hh, if_false, htake, hdrop, hl, ne_eq, not_true_eq_false,
    getLength_putLength h _ hfit, lt_self_iff_false, false_and,
    Nat.not_lt.mpr hmin, List.take_left, List.drop_left]

/-- A decoded field respects the declared minimum. -/
theorem decodeSlice_min (o : FieldOpts) (d data rest : Bytes)
    (hok : decodeSlice o d = Except.ok (data, rest)) : o.min ≤ data.length := by
  unfold decodeSlice at hok
  simp only at hok
  split_ifs at hok with h0 h1 h2 h3 h4
  injection hok with h5
  injection h5 with h6 h7
  subst h6
  simp only [ne_eq, not_not] at h4
  omega

/-- A field encoding cut short anywhere is not decoded. -/
theorem decodeSlice_take_fails (h mn k : Nat) (data : Bytes)
    (hfit : data.length < 256 ^ h) (hk : k < h + data.length) :
    ∃ e, decodeSlice ⟨h, mn, 0⟩ ((putLength h data.length ++ data).take k)
      = Except.error e := by
  have hl := putLength_length h data.length
  unfold decodeSlice
  simp only
  by_cases hh : h = 0
  · simp [hh]
  by_cases hkh : k < h
  · have : (List.take h (List.take k (putLength h data.length ++ data))).length ≠ h := by
      simp only [List.length_take, List.length_append, hl]; omega
    rw [if_neg hh, if_pos this]
    exact ⟨_, rfl⟩
  · have hkh2 : h ≤ k := by omega
    have htake : List.take h (List.take k (putLength h data.length ++ data))
        = putLength h data.length := by
      rw [List.take_take, Nat.min_eq_left hkh2, List.take_append_of_le_length (by omega)]
      exact List.take_of_length_le (by omega)
    have hlen : (List.take (data.length)
        (List.drop h (List.take k (putLength h data.length ++ data)))).length
          ≠ data.length := by
      simp only [List.length_take, List.length_drop, List.length_append, hl]; omega
    simp only [hh, if_false, htake, hl, ne_eq, not_true_eq_false,
      getLength_putLength h _ hfit, lt_self_iff_false, false_and]
    rw [if_pos hlen]
    split_ifs
    · exact ⟨_, rfl⟩
    · exact ⟨_, rfl⟩

end Mint

/-! ## Lemmas on CredentialRequest and the outer frame -/

theorem putLength_two (n : Nat) :
    Mint.putLength 2 n = [byteOf (n / 256), byteOf n] := by
  simp [Mint.putLength, Nat.shiftRight_eq_div_pow]

theorem putLength_three (n : Nat) :
    Mint.putLength 3 n = [byteOf (n / 65536), byteOf (n / 256), byteOf n] := by
  simp [Mint.putLength, Nat.shiftRight_eq_div_pow]

theorem credentialRequest_marshal_ok (v : CredentialRequest)
    (hu : v.UserID.length ≤ 65535) (ho1 : 1 ≤ v.OprfData.length)
    (ho2 : v.OprfData.length ≤ 65535) :
    v.Marshal = Except.ok (Mint.putLength 2 v.UserID.length ++ v.UserID
      ++ (Mint.putLength 2 v.OprfData.length ++ v.OprfData)) := by
  unfold CredentialRequest.Marshal
  rw [Mint.encodeSlice_ok 2 0 v.UserID (by decide) (by norm_num; omega) (by omega),
    Mint.encodeSlice_ok 2 1 v.OprfData (by decide) (by norm_num; omega) ho1]
  rfl

theorem credentialRequest_marshal_inv (v : CredentialRequest) (enc : Bytes)
    (hok : v.Marshal = Except.ok enc) :
    v.UserID.length ≤ 65535 ∧ 1 ≤ v.OprfData.length ∧ v.OprfData.length ≤ 65535 := by
  unfold CredentialRequest.Marshal at hok
  cases h1 : Mint.encodeSlice ⟨2, 0, 0⟩ v.UserID with
  | error e => rw [h1] at hok; cases hok
  | ok a =>
    cases h2 : Mint.encodeSlice ⟨2, 1, 0⟩ v.OprfData with
    | error e => rw [h1, h2] at hok; cases hok
    | ok b =>
      have i1 := Mint.encodeSlice_inv 2 0 _ _ h1
      have i2 := Mint.encodeSlice_inv 2 1 _ _ h2
      norm_num at i1 i2
      omega

theorem credentialRequest_unmarshal_append (v : CredentialRequest) (rest : Bytes)
    (hu : v.UserID.length ≤ 65535) (ho1 : 1 ≤ v.OprfData.length)
    (ho2 : v.OprfData.length ≤ 65535) :
    CredentialRequest.Unmarshal (Mint.putLength 2 v.UserID.length ++ v.UserID
      ++ (Mint.putLength 2 v.OprfData.length ++ v.OprfData) ++ rest)
      = Except.ok (v, 4 + v.UserID.length + v.OprfData.length) := by
  unfold CredentialRequest.Unmarshal
  have e1 := Mint.decodeSlice_append 2 0 v.UserID
    (Mint.putLength 2 v.OprfData.length ++ v.OprfData ++ rest) (by decide)
    (by norm_num; omega) (by omega)
  have e2 := Mint.decodeSlice_append 2 1 v.OprfData rest (by decide)
    (by norm_num; omega) ho1
  simp only [List.append_assoc] at e1 e2 ⊢
  rw [e1]
  simp only [bind, Except.bind]
  rw [e2]
  simp only [pure, Except.pure, List.length_append, Mint.putLength_length]
  congr 2
  omega

theorem credentialRequest_marshal_length (v : CredentialRequest) (enc : Bytes)
    (hok : v.Marshal = Except.ok enc) :
    enc.length = 4 + v.UserID.length + v.OprfData.length := by
  obtain ⟨h1, h2, h3⟩ := credentialRequest_marshal_inv v enc hok
  have h := credentialRequest_marshal_ok v h1 h2 h3
  rw [hok] at h
  injection h with h
  subst h
  simp only [List.length_append, Mint.putLength_length]; omega

theorem protocolMessage_marshal_ok (m : ProtocolMessage)
    (hn : m.MessageBodyRaw.length ≤ 2 ^ 24 - 1) :
    m.Marshal = Except.ok (m.MessageType ::
      (Mint.putLength 3 m.MessageBodyRaw.length ++ m.MessageBodyRaw)) := by
  unfold ProtocolMessage.Marshal
  rw [Mint.encodeSlice_ok 3 0 m.MessageBodyRaw (by decide) (by norm_num at hn ⊢; omega)
    (by omega)]
  rfl

theorem protocolMessage_unmarshal_append (m : ProtocolMessage) (s : Bytes)
    (hn : m.MessageBodyRaw.length ≤ 2 ^ 24 - 1) :
    ProtocolMessage.Unmarshal (m.MessageType ::
      (Mint.putLength 3 m.MessageBodyRaw.length ++ m.MessageBodyRaw) ++ s)
      = Except.ok (m, 4 + m.MessageBodyRaw.length) := by
  unfold ProtocolMessage.Unmarshal
  have e1 := Mint.decodeSlice_append 3 0 m.MessageBodyRaw s (by decide)
    (by norm_num at hn ⊢; omega) (by omega)
  simp only [List.cons_append, Mint.decodeUint8, bind, Except.bind]
  rw [e1]
  simp only [pure, Except.pure, List.length_append, List.length_cons,
    Mint.putLength_length]
  congr 2
  omega

/-! ## CredentialRequest: round trip, bounds, layout -/

/-- C1. Binary round trip of CredentialRequest: when `UserID` has at most
65535 bytes and `OprfData` between 1 and 65535 bytes, `Marshal` succeeds, its
output has `4 + len(UserID) + len(OprfData)` bytes, and `Unmarshal` of that
output succeeds, gives back both fields unchanged and reports the whole
encoding as consumed. -/
theorem credentialRequest_binary_roundtrip (v : CredentialRequest)
    (hu : v.UserID.length ≤ 65535) (ho1 : 1 ≤ v.OprfData.length)
    (ho2 : v.OprfData.length ≤ 65535) :
    ∃ enc, v.Marshal = Except.ok enc ∧
      enc.length = 4 + v.UserID.length + v.OprfData.length ∧
      CredentialRequest.Unmarshal enc = Except.ok (v, enc.length) := by
  refine ⟨_, credentialRequest_marshal_ok v hu ho1 ho2, ?_, ?_⟩
  · simp only [List.length_append, Mint.putLength_length]; omega
  · have h := credentialRequest_unmarshal_append v [] hu ho1 ho2
    rw [List.append_nil] at h
    rw [h]
    simp only [List.length_append, Mint.putLength_length]
    congr 2
    omega

/-- Witness of C1: the request of user "alice" with 32 bytes of OPRF data. -/
theorem credentialRequest_binary_roundtrip_witness :
    ∃ enc, (CredentialRequest.mk [97, 108, 105, 99, 101] (List.replicate 32 7)).Marshal
        = Except.ok enc ∧
      enc.length = 4 + 5 + 32 ∧
      CredentialRequest.Unmarshal enc
        = Except.ok (CredentialRequest.mk [97, 108, 105, 99, 101] (List.replicate 32 7),
            enc.length) :=
  credentialRequest_binary_roundtrip
    (CredentialRequest.mk [97, 108, 105, 99, 101] (List.replicate 32 7))
    (by decide) (by decide) (by decide)

/-- C7. Length bounds on encode: `CredentialRequest.Marshal` succeeds exactly
when `UserID` has at most 65535 bytes and `OprfData` between 1 and 65535
bytes, and fails otherwise. -/
theorem credentialRequest_marshal_succeeds_iff (v : CredentialRequest) :
    ((∃ enc, v.Marshal = Except.ok enc) ↔
      (v.UserID.length ≤ 65535 ∧ 1 ≤ v.OprfData.length ∧ v.OprfData.length ≤ 65535)) ∧
    ((∃ e, v.Marshal = Except.error e) ↔
      ¬ (v.UserID.length ≤ 65535 ∧ 1 ≤ v.OprfData.length ∧ v.OprfData.length ≤ 65535)) := by
  have hiff : (∃ enc, v.Marshal = Except.ok enc) ↔
      (v.UserID.length ≤ 65535 ∧ 1 ≤ v.OprfData.length ∧ v.OprfData.length ≤ 65535) := by
    constructor
    · rintro ⟨enc, h⟩
      exact credentialRequest_marshal_inv v enc h
    · rintro ⟨h1, h2, h3⟩
      exact ⟨_, credentialRequest_marshal_ok v h1 h2 h3⟩
  refine ⟨hiff, ?_⟩
  rw [← hiff]
  cases h : v.Marshal with
  | error e => simp
  | ok enc => simp

/-- Witness of C7: with a five-byte UserID, encoding fails for OPRF data of
length 0, succeeds for length 1 and fails for length 65536. -/
theorem credentialRequest_marshal_succeeds_iff_witness :
    (∃ e, (CredentialRequest.mk [97, 108, 105, 99, 101] []).Marshal = Except.error e) ∧
    (∃ enc, (CredentialRequest.mk [97, 108, 105, 99, 101] [7]).Marshal = Except.ok enc) ∧
    (∃ e, (CredentialRequest.mk [97, 108, 105, 99, 101] (List.replicate 65536 7)).Marshal
      = Except.error e) := by
  refine ⟨?_, ?_, ?_⟩
  · exact (credentialRequest_marshal_succeeds_iff _).2.mpr (by simp)
  · exact (credentialRequest_marshal_succeeds_iff _).1.mpr (by simp)
  · exact (credentialRequest_marshal_succeeds_iff _).2.mpr
      (by simp only [List.length_replicate]; omega)

/-- C8. Wire layout of CredentialRequest: a successful `Marshal` returns the
length of `UserID` on two bytes, most significant first, then `UserID`, then
the length of `OprfData` on two bytes, most significant first, then
`OprfData`, and nothing else; each pair of length bytes has the field length
as its big-endian value. -/
theorem credentialRequest_wire_layout (v : CredentialRequest) (enc : Bytes)
    (hok : v.Marshal = Except.ok enc) :
    enc = [byteOf (v.UserID.length / 256), byteOf v.UserID.length] ++ v.UserID
        ++ [byteOf (v.OprfData.length / 256), byteOf v.OprfData.length] ++ v.OprfData ∧
      (byteOf (v.UserID.length / 256)).val * 256 + (byteOf v.UserID.length).val
        = v.UserID.length ∧
      (byteOf (v.OprfData.length / 256)).val * 256 + (byteOf v.OprfData.length).val
        = v.OprfData.length ∧
      enc.length = 4 + v.UserID.length + v.OprfData.length := by
  obtain ⟨h1, h2, h3⟩ := credentialRequest_marshal_inv v enc hok
  have h := credentialRequest_marshal_ok v h1 h2 h3
  rw [hok] at h
  injection h with h
  subst h
  refine ⟨by simp [putLength_two], ?_, ?_, ?_⟩
  · simp only [byteOf]; omega
  · simp only [byteOf]; omega
  · simp only [List.length_append, Mint.putLength_length]; omega

/-- Witness of C8: the layout of the request with UserID `[1, 2, 3]` and
OprfData `[9]`. -/
theorem credentialRequest_wire_layout_witness :
    (CredentialRequest.mk [1, 2, 3] [9]).Marshal = Except.ok [0, 3, 1, 2, 3, 0, 1, 9] ∧
      ([0, 3, 1, 2, 3, 0, 1, 9] : Bytes).length = 4 + 3 + 1 :=
  ⟨rfl, (credentialRequest_wire_layout (CredentialRequest.mk [1, 2, 3] [9])
    [0, 3, 1, 2, 3, 0, 1, 9] rfl).2.2.2⟩

/-- C9. Zero-length OPRF data is rejected on decode: when the `UserID` field
of the input parses and the two bytes after it are zero, `Unmarshal` fails,
whatever follows; and `Unmarshal` never returns a CredentialRequest whose
`OprfData` is empty. -/
theorem credentialRequest_unmarshal_rejects_empty_oprf (data : Bytes) :
    (∀ userID rest, Mint.decodeSlice ⟨2, 0, 0⟩ data = Except.ok (userID, 0 :: 0 :: rest) →
      ∃ e, CredentialRequest.Unmarshal data = Except.error e) ∧
    (∀ v n, CredentialRequest.Unmarshal data = Except.ok (v, n) → v.OprfData ≠ []) := by
  constructor
  · intro userID rest h
    unfold CredentialRequest.Unmarshal
    rw [h]
    exact ⟨_, rfl⟩
  · intro v n h
    unfold CredentialRequest.Unmarshal at h
    cases h1 : Mint.decodeSlice ⟨2, 0, 0⟩ data with
    | error e => rw [h1] at h; cases h
    | ok p1 =>
      obtain ⟨userID, r1⟩ := p1
      cases h2 : Mint.decodeSlice ⟨2, 1, 0⟩ r1 with
      | error e => rw [h1] at h; simp only [bind, Except.bind] at h; rw [h2] at h; cases h
      | ok p2 =>
        obtain ⟨oprfData, r2⟩ := p2
        rw [h1] at h
        simp only [bind, Except.bind] at h
        rw [h2] at h
        simp only [pure, Except.pure] at h
        injection h with h
        injection h with h3 h4
        subst h3
        have hmin := Mint.decodeSlice_min _ _ _ _ h2
        intro hnil
        simp only at hnil
        rw [hnil] at hmin
        simp at hmin

/-- Witness of C9: UserID `[1, 2, 3]` followed by a zero OPRF length and two
more bytes is refused. -/
theorem credentialRequest_unmarshal_rejects_empty_oprf_witness :
    ∃ e, CredentialRequest.Unmarshal [0, 3, 1, 2, 3, 0, 0, 9, 7] = Except.error e :=
  (credentialRequest_unmarshal_rejects_empty_oprf [0, 3, 1, 2, 3, 0, 0, 9, 7]).1
    [1, 2, 3] [9, 7] rfl

/-! ## Outer frame: layout, trailing bytes, truncation -/

/-- C2. Wire layout of the outer frame: when the body has at most `2^24 - 1`
bytes, `ProtocolMessage.Marshal` succeeds and returns the type byte, then the
body length on three bytes, most significant first, then the body unchanged,
`4 + n` bytes in all; when the body has `2^24` bytes or more, it fails. -/
theorem protocolMessage_marshal_layout (m : ProtocolMessage) :
    (m.MessageBodyRaw.length ≤ 2 ^ 24 - 1 →
      m.Marshal = Except.ok (m.MessageType ::
        byteOf (m.MessageBodyRaw.length / 65536) ::
        byteOf (m.MessageBodyRaw.length / 256) ::
        byteOf m.MessageBodyRaw.length :: m.MessageBodyRaw) ∧
      (byteOf (m.MessageBodyRaw.length / 65536)).val * 65536
        + (byteOf (m.MessageBodyRaw.length / 256)).val * 256
        + (byteOf m.MessageBodyRaw.length).val = m.MessageBodyRaw.length ∧
      (m.MessageType :: byteOf (m.MessageBodyRaw.length / 65536) ::
        byteOf (m.MessageBodyRaw.length / 256) ::
        byteOf m.MessageBodyRaw.length :: m.MessageBodyRaw).length
        = 4 + m.MessageBodyRaw.length) ∧
    (2 ^ 24 ≤ m.MessageBodyRaw.length → ∃ e, m.Marshal = Except.error e) := by
  constructor
  · intro hn
    refine ⟨?_, ?_, ?_⟩
    · rw [protocolMessage_marshal_ok m hn, putLength_three]; rfl
    · norm_num at hn
      simp only [byteOf]; omega
    · simp only [List.length_cons]; omega
  · intro hn
    have h1 : 0 < m.MessageBodyRaw.length >>> (8 * 3) := by
      rw [Mint.shiftRight_pos_iff]; norm_num at hn ⊢; omega
    unfold ProtocolMessage.Marshal Mint.encodeSlice
    simp only [h1, if_true, lt_self_iff_false, false_and, if_false]
    exact ⟨_, rfl⟩

/-- Witness of C2: a three-byte body under tag 4 is framed as
`[4, 0, 0, 3, 1, 2, 3]`, and a body of `2^24` bytes is refused. -/
theorem protocolMessage_marshal_layout_witness :
    (ProtocolMessage.mk 4 [1, 2, 3]).Marshal = Except.ok [4, 0, 0, 3, 1, 2, 3] ∧
    (∃ e, (ProtocolMessage.mk 4 (List.replicate 16777216 0)).Marshal = Except.error e) :=
  ⟨((protocolMessage_marshal_layout (ProtocolMessage.mk 4 [1, 2, 3])).1 (by decide)).1,
    (protocolMessage_marshal_layout (ProtocolMessage.mk 4 (List.replicate 16777216 0))).2
      (by simp only [List.length_replicate]; norm_num)⟩

/-- C3. Frame decoding ignores trailing bytes and does not consume them: when
the body has at most `2^24 - 1` bytes, `Unmarshal` of the frame followed by any
byte string `s` succeeds, gives back the type and the body, and reports
`4 + n` bytes consumed, the length of the frame; the result is the same for
every `s`. -/
theorem protocolMessage_unmarshal_ignores_trailing (m : ProtocolMessage) (s : Bytes)
    (hn : m.MessageBodyRaw.length ≤ 2 ^ 24 - 1) :
    ∃ enc, m.Marshal = Except.ok enc ∧
      enc.length = 4 + m.MessageBodyRaw.length ∧
      ProtocolMessage.Unmarshal (enc ++ s) = Except.ok (m, 4 + m.MessageBodyRaw.length) ∧
      ProtocolMessage.Unmarshal (enc ++ s) = ProtocolMessage.Unmarshal enc := by
  refine ⟨_, protocolMessage_marshal_ok m hn, ?_, ?_, ?_⟩
  · simp only [List.length_cons, List.length_append, Mint.putLength_length]; omega
  · exact protocolMessage_unmarshal_append m s hn
  · have h := protocolMessage_unmarshal_append m [] hn
    rw [List.append_nil] at h
    rw [h]
    exact protocolMessage_unmarshal_append m s hn

/-- Witness of C3: the frame `[4, 0, 0, 3, 1, 2, 3]` followed by `[5, 6]`. -/
theorem protocolMessage_unmarshal_ignores_trailing_witness :
    ∃ enc, (ProtocolMessage.mk 4 [1, 2, 3]).Marshal = Except.ok enc ∧
      enc.length = 4 + 3 ∧
      ProtocolMessage.Unmarshal (enc ++ [5, 6])
        = Except.ok (ProtocolMessage.mk 4 [1, 2, 3], 4 + 3) ∧
      ProtocolMessage.Unmarshal (enc ++ [5, 6]) = ProtocolMessage.Unmarshal enc :=
  protocolMessage_unmarshal_ignores_trailing (ProtocolMessage.mk 4 [1, 2, 3]) [5, 6]
    (by decide)

/-- C4. Truncated frames are rejected: when the body has at most `2^24 - 1`
bytes, `Unmarshal` fails on every proper prefix of the frame (the empty input
and a cut header included); it fails on every input of fewer than four bytes;
and it fails on every input whose three length bytes declare more bytes than
follow the header. -/
theorem protocolMessage_unmarshal_rejects_truncated (m : ProtocolMessage)
    (hn : m.MessageBodyRaw.length ≤ 2 ^ 24 - 1) :
    (∀ enc k, m.Marshal = Except.ok enc → k < enc.length →
      ∃ e, ProtocolMessage.Unmarshal (enc.take k) = Except.error e) ∧
    (∀ d : Bytes, d.length < 4 → ∃ e, ProtocolMessage.Unmarshal d = Except.error e) ∧
    (∀ (t b0 b1 b2 : Byte) (rest : Bytes),
      rest.length < b0.val * 65536 + b1.val * 256 + b2.val →
      ∃ e, ProtocolMessage.Unmarshal (t :: b0 :: b1 :: b2 :: rest) = Except.error e) := by
  refine ⟨?_, ?_, ?_⟩
  · intro enc k hok hk
    rw [protocolMessage_marshal_ok m hn] at hok
    injection hok with hok
    subst hok
    cases k with
    | zero => exact ⟨_, rfl⟩
    | succ k =>
      simp only [List.length_cons, List.length_append, Mint.putLength_length] at hk
      obtain ⟨e, he⟩ := Mint.decodeSlice_take_fails 3 0 k m.MessageBodyRaw
        (by norm_num at hn ⊢; omega) (by omega)
      refine ⟨e, ?_⟩
      unfold ProtocolMessage.Unmarshal
      simp only [List.take_succ_cons, Mint.decodeUint8, bind, Except.bind]
      rw [he]
  · intro d hd
    cases d with
    | nil => exact ⟨_, rfl⟩
    | cons t d =>
      simp only [List.length_cons] at hd
      have hlen : (List.take 3 d).length ≠ 3 := by
        simp only [List.length_take]; omega
      unfold ProtocolMessage.Unmarshal Mint.decodeSlice
      simp only [Mint.decodeUint8, bind, Except.bind]
      rw [if_neg (by decide), if_pos hlen]
      exact ⟨_, rfl⟩
  · intro t b0 b1 b2 rest hrest
    have hval : Mint.getLength [b0, b1, b2] = b0.val * 65536 + b1.val * 256 + b2.val := by
      simp only [Mint.getLength, List.foldl_cons, List.foldl_nil, Nat.shiftLeft_eq]
      ring
    have hlen : (List.take (Mint.getLength [b0, b1, b2]) rest).length
        ≠ Mint.getLength [b0, b1, b2] := by
      simp only [List.length_take, hval]; omega
    unfold ProtocolMessage.Unmarshal Mint.decodeSlice
    simp only [Mint.decodeUint8, bind, Except.bind, List.take_succ_cons, List.take_zero,
      List.drop_succ_cons, List.drop_zero, List.length_cons, List.length_nil]
    rw [if_neg (by decide), if_neg (by simp), if_neg (by simp), if_neg (by simp),
      if_pos hlen]
    exact ⟨_, rfl⟩

/-- Witness of C4: the frame `[4, 0, 0, 3, 1, 2, 3]` cut to six bytes, the
three-byte input `[4, 0, 0]`, and a header declaring three bytes with two
following, are all refused. -/
theorem protocolMessage_unmarshal_rejects_truncated_witness :
    (∃ e, ProtocolMessage.Unmarshal (List.take 6 [4, 0, 0, 3, 1, 2, 3]) = Except.error e) ∧
    (∃ e, ProtocolMessage.Unmarshal [4, 0, 0] = Except.error e) ∧
    (∃ e, ProtocolMessage.Unmarshal [4, 0, 0, 3, 1, 2] = Except.error e) :=
  ⟨(protocolMessage_unmarshal_rejects_truncated (ProtocolMessage.mk 4 [1, 2, 3])
      (by decide)).1 [4, 0, 0, 3, 1, 2, 3] 6 rfl (by decide),
    (protocolMessage_unmarshal_rejects_truncated (ProtocolMessage.mk 4 [1, 2, 3])
      (by decide)).2.1 [4, 0, 0] (by decide),
    (protocolMessage_unmarshal_rejects_truncated (ProtocolMessage.mk 4 [1, 2, 3])
      (by decide)).2.2 4 0 0 3 [1, 2] (by decide)⟩

/-! ## Dispatch: ToBody and ProtocolMessageFromBody -/

/-- C5. `ToBody` fails exactly on unknown tags: it returns an error if and
only if `MessageType` is none of 1, 2, 3, 4, 5; the error it returns has the
sentinel `ErrorUnrecognizedMessage` in its chain (`errors.Is` holds); and a
body it returns reports the tag of the message as its `Type()`. -/
theorem toBody_fails_iff_unknown_tag (Key : Type) (m : ProtocolMessage) :
    ((∃ e, (m.ToBody : Except GoError (ProtocolMessageBody Key)) = Except.error e) ↔
      ¬ (m.MessageType = 1 ∨ m.MessageType = 2 ∨ m.MessageType = 3 ∨
          m.MessageType = 4 ∨ m.MessageType = 5)) ∧
    (∀ e, (m.ToBody : Except GoError (ProtocolMessageBody Key)) = Except.error e →
      errorsIs e (GoError.sentinel ErrorUnrecognizedMessage) = some true) ∧
    (∀ b : ProtocolMessageBody Key, m.ToBody = Except.ok b → b.Type = m.MessageType) := by
  unfold ProtocolMessage.ToBody
  simp only [ProtocolMessageTypeRegistrationRequest, ProtocolMessageTypeRegistrationResponse,
    ProtocolMessageTypeRegistrationUpload, ProtocolMessageTypeCredentialRequest,
    ProtocolMessageTypeCredentialResponse]
  split_ifs with h1 h2 h3 h4 h5
  · refine ⟨by simp [h1], by simp, ?_⟩
    intro b hb; injection hb with hb; subst hb; rw [h1]; rfl
  · refine ⟨by simp [h2], by simp, ?_⟩
    intro b hb; injection hb with hb; subst hb; rw [h2]; rfl
  · refine ⟨by simp [h3], by simp, ?_⟩
    intro b hb; injection hb with hb; subst hb; rw [h3]; rfl
  · refine ⟨by simp [h4], by simp, ?_⟩
    intro b hb; injection hb with hb; subst hb; rw [h4]; rfl
  · refine ⟨by simp [h5], by simp, ?_⟩
    intro b hb; injection hb with hb; subst hb; rw [h5]; rfl
  · refine ⟨by simp [h1, h2, h3, h4, h5], ?_, by simp⟩
    intro e he
    injection he with he
    subst he
    simp [errorsWrapf, errorsIs, Error.Is]

/-- Witness of C5: tags 0 and 6 are refused with `ErrorUnrecognizedMessage`
in the chain, and tag 4 gives a body that reports tag 4. -/
theorem toBody_fails_iff_unknown_tag_witness :
    (∃ e, ((ProtocolMessage.mk 0 []).ToBody : Except GoError (ProtocolMessageBody Unit))
        = Except.error e ∧
      errorsIs e (GoError.sentinel ErrorUnrecognizedMessage) = some true) ∧
    (∃ e, ((ProtocolMessage.mk 6 []).ToBody : Except GoError (ProtocolMessageBody Unit))
        = Except.error e ∧
      errorsIs e (GoError.sentinel ErrorUnrecognizedMessage) = some true) ∧
    (∃ b, ((ProtocolMessage.mk 4 []).ToBody : Except GoError (ProtocolMessageBody Unit))
        = Except.ok b ∧ b.Type = 4) :=
  ⟨⟨_, rfl, (toBody_fails_iff_unknown_tag Unit (ProtocolMessage.mk 0 [])).2.1 _ rfl⟩,
    ⟨_, rfl, (toBody_fails_iff_unknown_tag Unit (ProtocolMessage.mk 6 [])).2.1 _ rfl⟩,
    ⟨_, rfl, (toBody_fails_iff_unknown_tag Unit (ProtocolMessage.mk 4 [])).2.2 _ rfl⟩⟩

/-- C6. `ProtocolMessageFromBody` makes tag and body agree: when the body
fails to marshal, it fails with that same error and returns no message;
otherwise it returns the message whose `MessageType` is the body's `Type()`
and whose `MessageBodyRaw` is the marshalled body, `ToBody` on that message
succeeds with a body of the same variant, and every framed encoding of that
message starts with the body's tag; for a CredentialRequest the framing
succeeds and the first byte is 4. -/
theorem protocolMessageFromBody_tag_agrees {Key : Type} (P : PKIX Key) (E : EnvelopeCodec)
    (R : RegistrationCodec Key) (b : ProtocolMessageBody Key) :
    (∀ e, b.Marshal P E R = Except.error e →
      ProtocolMessageFromBody P E R b = Except.error e) ∧
    (∀ raw, b.Marshal P E R = Except.ok raw →
      ProtocolMessageFromBody P E R b = Except.ok (ProtocolMessage.mk b.Type raw) ∧
      (∃ b2 : ProtocolMessageBody Key,
        (ProtocolMessage.mk b.Type raw).ToBody = Except.ok b2 ∧
        b2.variant = b.variant ∧ b2.Type = b.Type) ∧
      (∀ enc, (ProtocolMessage.mk b.Type raw).Marshal = Except.ok enc →
        enc.head? = some b.Type)) ∧
    (∀ v raw, b = ProtocolMessageBody.credentialRequest v →
      b.Marshal P E R = Except.ok raw →
      ∃ rest, (ProtocolMessage.mk b.Type raw).Marshal = Except.ok (4 :: rest)) := by
  refine ⟨?_, ?_, ?_⟩
  · intro e he
    unfold ProtocolMessageFromBody
    rw [he]
  · intro raw hraw
    refine ⟨?_, ?_, ?_⟩
    · unfold ProtocolMessageFromBody
      rw [hraw]
    · cases b <;> exact ⟨_, rfl, rfl, rfl⟩
    · intro enc henc
      unfold ProtocolMessage.Marshal at henc
      cases h : Mint.encodeSlice ⟨3, 0, 0⟩ raw with
      | error e => rw [h] at henc; cases henc
      | ok body =>
        rw [h] at henc
        injection henc with henc
        subst henc
        rfl
  · intro v raw hb hraw
    subst hb
    have hraw2 : v.Marshal = Except.ok raw := hraw
    obtain ⟨h1, h2, h3⟩ := credentialRequest_marshal_inv v raw hraw2
    have hlen := (credentialRequest_marshal_length v raw hraw2)
    refine ⟨_, protocolMessage_marshal_ok _ ?_⟩
    simp only
    norm_num
    omega

/-- Witness of C6: the CredentialRequest of "alice" with one byte of OPRF data
is wrapped under tag 4 and its frame starts with 4. -/
theorem protocolMessageFromBody_tag_agrees_witness :
    ProtocolMessageFromBody samplePKIX Envelope.specCodec sampleRegistrationCodec
        (ProtocolMessageBody.credentialRequest
          (CredentialRequest.mk [97, 108, 105, 99, 101] [7]))
      = Except.ok (ProtocolMessage.mk 4 [0, 5, 97, 108, 105, 99, 101, 0, 1, 7]) ∧
    (∃ rest, (ProtocolMessage.mk 4 [0, 5, 97, 108, 105, 99, 101, 0, 1, 7]).Marshal
      = Except.ok (4 :: rest)) :=
  ⟨((protocolMessageFromBody_tag_agrees samplePKIX Envelope.specCodec
      sampleRegistrationCodec
      (ProtocolMessageBody.credentialRequest
        (CredentialRequest.mk [97, 108, 105, 99, 101] [7]))).2.1
      [0, 5, 97, 108, 105, 99, 101, 0, 1, 7] rfl).1,
    (protocolMessageFromBody_tag_agrees samplePKIX Envelope.specCodec
      sampleRegistrationCodec
      (ProtocolMessageBody.credentialRequest
        (CredentialRequest.mk [97, 108, 105, 99, 101] [7]))).2.2
      (CredentialRequest.mk [97, 108, 105, 99, 101] [7])
      [0, 5, 97, 108, 105, 99, 101, 0, 1, 7] rfl rfl⟩

/-! ## CredentialResponse: round trip -/

/-- C10. Binary round trip of CredentialResponse: for OPRF data of 1 to 65535
bytes, an envelope that the envelope codec encodes and reads back from the
front of any buffer, and a present server public key whose serialization `s`
has at most 65535 bytes and parses back to the key, `Marshal` succeeds and
returns the OPRF length on two bytes big-endian, the OPRF data, the envelope
encoding, the length of `s` on two bytes big-endian, then `s`; `Unmarshal` of
that encoding succeeds from any receiver, leaves the receiver equal to the
original value, and reports the whole encoding as consumed. -/
theorem credentialResponse_binary_roundtrip {Key : Type} (P : PKIX Key) (E : EnvelopeCodec)
    (oprfData : Bytes) (env : Envelope) (k : Key) (s encEnv : Bytes)
    (cr0 : CredentialResponse Key)
    (ho1 : 1 ≤ oprfData.length) (ho2 : oprfData.length ≤ 65535)
    (henc : E.encode env = Except.ok encEnv)
    (hdec : ∀ rest, E.decode (encEnv ++ rest) = Except.ok (env, rest))
    (hs : P.marshal k = Except.ok s) (hsl : s.length ≤ 65535)
    (hparse : P.parse s = Except.ok k) :
    (CredentialResponse.mk oprfData (some env) (some k)).Marshal P E
      = Except.ok ([byteOf (oprfData.length / 256), byteOf oprfData.length] ++ oprfData
          ++ encEnv ++ [byteOf (s.length / 256), byteOf s.length] ++ s) ∧
    (byteOf (oprfData.length / 256)).val * 256 + (byteOf oprfData.length).val
      = oprfData.length ∧
    (byteOf (s.length / 256)).val * 256 + (byteOf s.length).val = s.length ∧
    CredentialResponse.Unmarshal P E cr0
        ([byteOf (oprfData.length / 256), byteOf oprfData.length] ++ oprfData
          ++ encEnv ++ [byteOf (s.length / 256), byteOf s.length] ++ s)
      = (CredentialResponse.mk oprfData (some env) (some k),
          ([byteOf (oprfData.length / 256), byteOf oprfData.length] ++ oprfData
            ++ encEnv ++ [byteOf (s.length / 256), byteOf s.length] ++ s).length,
          none) := by
  have e1 := Mint.encodeSlice_ok 2 1 oprfData (by decide) (by norm_num; omega) ho1
  have e2 := Mint.encodeSlice_ok 2 0 s (by decide) (by norm_num; omega) (by omega)
  have d1 := Mint.decodeSlice_append 2 1 oprfData
    (encEnv ++ (Mint.putLength 2 s.length ++ s)) (by decide) (by norm_num; omega) ho1
  have d3 := Mint.decodeSlice_append 2 0 s [] (by decide) (by norm_num; omega) (by omega)
  rw [List.append_nil] at d3
  rw [putLength_two] at e1 e2 d1 d3
  rw [putLength_two] at d1
  refine ⟨?_, ?_, ?_, ?_⟩
  · unfold CredentialResponse.Marshal credentialResponseInner.Marshal
    simp only [MarshalPKIXPublicKey, hs, bind, Except.bind, e1, henc, e2, pure, Except.pure,
      List.append_assoc]
  · simp only [byteOf]; omega
  · simp only [byteOf]; omega
  · have hinner : credentialResponseInner.Unmarshal E
        ([byteOf (oprfData.length / 256), byteOf oprfData.length] ++ oprfData
          ++ encEnv ++ [byteOf (s.length / 256), byteOf s.length] ++ s)
        = Except.ok (credentialResponseInner.mk oprfData (some env) s,
            ([byteOf (oprfData.length / 256), byteOf oprfData.length] ++ oprfData
              ++ encEnv ++ [byteOf (s.length / 256), byteOf s.length] ++ s).length) := by
      unfold credentialResponseInner.Unmarshal
      simp only [List.append_assoc] at d1 ⊢
      rw [d1]
      simp only [bind, Except.bind]
      rw [hdec]
      simp only []
      rw [d3]
      simp [pure, Except.pure]
    unfold CredentialResponse.Unmarshal
    rw [hinner]
    simp only [hparse]

/-- Witness of C10: one byte of OPRF data, an envelope with four one-byte
fields under the two-byte-prefixed envelope codec, and the sample key `[5]`. -/
theorem credentialResponse_binary_roundtrip_witness :
    (CredentialResponse.mk [9] (some (Envelope.mk [1] [2] [3] [4])) (some [5])).Marshal
        samplePKIX Envelope.specCodec
      = Except.ok [0, 1, 9, 0, 1, 1, 0, 1, 2, 0, 1, 3, 0, 1, 4, 0, 2, 48, 5] ∧
    CredentialResponse.Unmarshal samplePKIX Envelope.specCodec
        (CredentialResponse.mk [] none none)
        [0, 1, 9, 0, 1, 1, 0, 1, 2, 0, 1, 3, 0, 1, 4, 0, 2, 48, 5]
      = (CredentialResponse.mk [9] (some (Envelope.mk [1] [2] [3] [4])) (some [5]),
          19, none) :=
  ⟨(credentialResponse_binary_roundtrip samplePKIX Envelope.specCodec [9]
      (Envelope.mk [1] [2] [3] [4]) [5] [48, 5] [0, 1, 1, 0, 1, 2, 0, 1, 3, 0, 1, 4]
      (CredentialResponse.mk [] none none) (by decide) (by decide) rfl (fun _ => rfl) rfl
      (by decide) rfl).1,
    (credentialResponse_binary_roundtrip samplePKIX Envelope.specCodec [9]
      (Envelope.mk [1] [2] [3] [4]) [5] [48, 5] [0, 1, 1, 0, 1, 2, 0, 1, 3, 0, 1, 4]
      (CredentialResponse.mk [] none none) (by decide) (by decide) rfl (fun _ => rfl) rfl
      (by decide) rfl).2.2.2⟩

/-! ## CredentialResponse: failed decodes and the absent key -/

/-- C11. A key that fails to parse is a decode error: when the length-prefixed
structure decodes but the key parser rejects the server-public-key bytes,
`CredentialResponse.Unmarshal` returns that error with 0 bytes consumed and
the receiver is as it was before the call; the same holds when the structural
decode fails; so every call that returns an error returns 0 and leaves the
receiver unchanged. -/
theorem credentialResponse_unmarshal_error_keeps_receiver {Key : Type} (P : PKIX Key)
    (E : EnvelopeCodec) (cr : CredentialResponse Key) (data : Bytes) :
    (∀ cri n e, credentialResponseInner.Unmarshal E data = Except.ok (cri, n) →
      P.parse cri.ServerPublicKey = Except.error e →
      CredentialResponse.Unmarshal P E cr data = (cr, 0, some e)) ∧
    (∀ e, credentialResponseInner.Unmarshal E data = Except.error e →
      CredentialResponse.Unmarshal P E cr data = (cr, 0, some e)) ∧
    (∀ cr2 n e, CredentialResponse.Unmarshal P E cr data = (cr2, n, some e) →
      cr2 = cr ∧ n = 0) := by
  refine ⟨?_, ?_, ?_⟩
  · intro cri n e h1 h2
    unfold CredentialResponse.Unmarshal
    rw [h1]
    simp only [h2]
  · intro e h1
    unfold CredentialResponse.Unmarshal
    rw [h1]
  · intro cr2 n e h
    unfold CredentialResponse.Unmarshal at h
    cases h1 : credentialResponseInner.Unmarshal E data with
    | error err =>
      rw [h1] at h
      simp only [Prod.mk.injEq] at h
      exact ⟨h.1.symm, h.2.1.symm⟩
    | ok p =>
      obtain ⟨cri, bytesRead⟩ := p
      rw [h1] at h
      simp only at h
      cases h2 : P.parse cri.ServerPublicKey with
      | error err =>
        rw [h2] at h
        simp only [Prod.mk.injEq] at h
        exact ⟨h.1.symm, h.2.1.symm⟩
      | ok publicKey =>
        rw [h2] at h
        simp only [Prod.mk.injEq] at h
        exact absurd h.2.2 (by simp)

/-- Witness of C11: an input whose structure decodes and whose key bytes `[7]`
the sample key parser rejects, and an input cut inside the OPRF data, both
leave a receiver that held key `[5]` as it was and report 0 bytes. -/
theorem credentialResponse_unmarshal_error_keeps_receiver_witness :
    CredentialResponse.Unmarshal samplePKIX Envelope.specCodec
        (CredentialResponse.mk [8] (some (Envelope.mk [1] [2] [3] [4])) (some [5]))
        [0, 1, 9, 0, 1, 1, 0, 1, 2, 0, 1, 3, 0, 1, 4, 0, 1, 7]
      = (CredentialResponse.mk [8] (some (Envelope.mk [1] [2] [3] [4])) (some [5]), 0,
          some (GoError.foreign "asn1: syntax error")) ∧
    CredentialResponse.Unmarshal samplePKIX Envelope.specCodec
        (CredentialResponse.mk [8] (some (Envelope.mk [1] [2] [3] [4])) (some [5]))
        [0, 2, 9]
      = (CredentialResponse.mk [8] (some (Envelope.mk [1] [2] [3] [4])) (some [5]), 0,
          some (GoError.foreign "Available data less than declared length")) :=
  ⟨(credentialResponse_unmarshal_error_keeps_receiver samplePKIX Envelope.specCodec
      (CredentialResponse.mk [8] (some (Envelope.mk [1] [2] [3] [4])) (some [5]))
      [0, 1, 9, 0, 1, 1, 0, 1, 2, 0, 1, 3, 0, 1, 4, 0, 1, 7]).1
      (credentialResponseInner.mk [9] (some (Envelope.mk [1] [2] [3] [4])) [7]) 18
      (GoError.foreign "asn1: syntax error") rfl rfl,
    (credentialResponse_unmarshal_error_keeps_receiver samplePKIX Envelope.specCodec
      (CredentialResponse.mk [8] (some (Envelope.mk [1] [2] [3] [4])) (some [5]))
      [0, 2, 9]).2.1
      (GoError.foreign "Available data less than declared length") rfl⟩

/-- C12, as the code behaves. A CredentialResponse with no server public key
is not marshalled: `x509.MarshalPKIXPublicKey` refuses the nil key and
`Marshal` returns that error, whatever the OPRF data and the envelope; and an
input that carries a server-public-key field of length 0 is not unmarshalled
when the key parser rejects the empty byte string. -/
theorem credentialResponse_marshal_absent_key_fails {Key : Type} (P : PKIX Key)
    (E : EnvelopeCodec) (oprfData : Bytes) (env : Option Envelope) :
    (CredentialResponse.mk oprfData env (none : Option Key)).Marshal P E
      = Except.error (GoError.foreign "x509: unsupported public key type: <nil>") ∧
    (∀ cr data cri n e, credentialResponseInner.Unmarshal E data = Except.ok (cri, n) →
      cri.ServerPublicKey = [] → P.parse [] = Except.error e →
      CredentialResponse.Unmarshal P E cr data = (cr, 0, some e)) := by
  constructor
  · rfl
  · intro cr data cri n e h1 h2 h3
    unfold CredentialResponse.Unmarshal
    rw [h1]
    simp only [h2, h3]

/-- The failing input of C12 evaluated: valid OPRF data and envelope, no key:
`Marshal` fails; and the encoding with a key field of length 0 is refused by
`Unmarshal` under the sample key parser. -/
theorem credentialResponse_marshal_absent_key_fails_witness :
    (CredentialResponse.mk [9] (some (Envelope.mk [1] [2] [3] [4]))
        (none : Option Bytes)).Marshal samplePKIX Envelope.specCodec
      = Except.error (GoError.foreign "x509: unsupported public key type: <nil>") ∧
    CredentialResponse.Unmarshal samplePKIX Envelope.specCodec
        (CredentialResponse.mk [] none none)
        [0, 1, 9, 0, 1, 1, 0, 1, 2, 0, 1, 3, 0, 1, 4, 0, 0]
      = (CredentialResponse.mk [] none none, 0,
          some (GoError.foreign "asn1: syntax error")) :=
  ⟨(credentialResponse_marshal_absent_key_fails samplePKIX Envelope.specCodec [9]
      (some (Envelope.mk [1] [2] [3] [4]))).1,
    (credentialResponse_marshal_absent_key_fails samplePKIX Envelope.specCodec [9]
      (some (Envelope.mk [1] [2] [3] [4]))).2 (CredentialResponse.mk [] none none)
      [0, 1, 9, 0, 1, 1, 0, 1, 2, 0, 1, 3, 0, 1, 4, 0, 0]
      (credentialResponseInner.mk [9] (some (Envelope.mk [1] [2] [3] [4])) []) 17
      (GoError.foreign "asn1: syntax error") rfl rfl rfl⟩

/-! ## Interchange codec: round trips -/

theorem byteOf_val (b : Byte) : byteOf b.val = b := by
  apply Fin.ext
  simp only [byteOf]
  exact Nat.mod_eq_of_lt b.isLt

theorem map_byteOf_val (l : List Byte) :
    (l.map (fun s => byteOf s.val)).map (fun s => byteOf s.val) = l := by
  simp [List.map_map, Function.comp_def, byteOf_val]

/-- C13. Interchange round trip of RegistrationResponse: for a response with a
policy and a server public key whose PKIX serialization parses back to it,
`MarshalJSON` returns a document and `UnmarshalRegistrationResponseJSON` of
that document returns the same response: same `OprfData`, same key, and
`SecretTypes` and `CleartextTypes` the same lists, in the same order, with
every tag value kept, whatever byte it is. -/
theorem registrationResponse_json_roundtrip {Key : Type} (P : PKIX Key) (oprfData : Bytes)
    (k : Key) (s : Bytes) (policy : CredentialEncodingPolicy)
    (hs : P.marshal k = Except.ok s) (hparse : P.parse s = Except.ok k) :
    ∃ doc, (RegistrationResponse.mk oprfData (some k) (some policy)).MarshalJSON P
        = some (Except.ok doc) ∧
      UnmarshalRegistrationResponseJSON P doc
        = Except.ok (RegistrationResponse.mk oprfData (some k) (some policy)) := by
  refine ⟨JSONDoc.object [("OprfData", oprfData), ("ServerPublicKey", s),
    ("SecretTypes", policy.SecretTypes.map (fun s => byteOf s.val)),
    ("CleartextTypes", policy.CleartextTypes.map (fun cl => byteOf cl.val))], ?_, ?_⟩
  · simp only [RegistrationResponse.MarshalJSON, MarshalPKIXPublicKey, hs, jsonMarshal]
  · have f1 : jsonField [("OprfData", oprfData), ("ServerPublicKey", s),
        ("SecretTypes", policy.SecretTypes.map (fun s => byteOf s.val)),
        ("CleartextTypes", policy.CleartextTypes.map (fun cl => byteOf cl.val))]
        "ServerPublicKey" = s := rfl
    have f2 : jsonField [("OprfData", oprfData), ("ServerPublicKey", s),
        ("SecretTypes", policy.SecretTypes.map (fun s => byteOf s.val)),
        ("CleartextTypes", policy.CleartextTypes.map (fun cl => byteOf cl.val))]
        "OprfData" = oprfData := rfl
    have f3 : jsonField [("OprfData", oprfData), ("ServerPublicKey", s),
        ("SecretTypes", policy.SecretTypes.map (fun s => byteOf s.val)),
        ("CleartextTypes", policy.CleartextTypes.map (fun cl => byteOf cl.val))]
        "SecretTypes" = policy.SecretTypes.map (fun s => byteOf s.val) := rfl
    have f4 : jsonField [("OprfData", oprfData), ("ServerPublicKey", s),
        ("SecretTypes", policy.SecretTypes.map (fun s => byteOf s.val)),
        ("CleartextTypes", policy.CleartextTypes.map (fun cl => byteOf cl.val))]
        "CleartextTypes" = policy.CleartextTypes.map (fun cl => byteOf cl.val) := rfl
    simp only [UnmarshalRegistrationResponseJSON, jsonUnmarshal, f1, f2, f3, f4, hparse,
      map_byteOf_val]

/-- Witness of C13: one secret type (tag 1) and two cleartext types (tags 5
and 3, then the unassigned tag 200), under the sample key provider. -/
theorem registrationResponse_json_roundtrip_witness :
    ∃ doc, (RegistrationResponse.mk [9, 9] (some [5])
          (some (CredentialEncodingPolicy.mk [1] [5, 3, 200]))).MarshalJSON samplePKIX
        = some (Except.ok doc) ∧
      UnmarshalRegistrationResponseJSON samplePKIX doc
        = Except.ok (RegistrationResponse.mk [9, 9] (some [5])
            (some (CredentialEncodingPolicy.mk [1] [5, 3, 200]))) :=
  registrationResponse_json_roundtrip samplePKIX [9, 9] [5] [48, 5]
    (CredentialEncodingPolicy.mk [1] [5, 3, 200]) rfl rfl

/-- C14. Interchange round trip of the two request messages: for every
RegistrationRequest and every CredentialRequest, `MarshalJSON` returns a
document and the matching `Unmarshal...JSON` function returns from it a value
equal to the original, `UserID` and `OprfData` byte for byte. -/
theorem request_json_roundtrip (v : RegistrationRequest) (w : CredentialRequest) :
    (∃ doc, v.MarshalJSON = Except.ok doc ∧
      UnmarshalRegistrationRequestJSON doc = Except.ok v) ∧
    (∃ doc, w.MarshalJSON = Except.ok doc ∧
      UnmarshalCredentialRequestJSON doc = Except.ok w) :=
  ⟨⟨_, rfl, rfl⟩, ⟨_, rfl, rfl⟩⟩

/-- Witness of C14: UserID "username" with 32 bytes of OPRF data, for both
request messages. -/
theorem request_json_roundtrip_witness :
    (∃ doc, (RegistrationRequest.mk [117, 115, 101, 114, 110, 97, 109, 101]
          (List.replicate 32 7)).MarshalJSON = Except.ok doc ∧
      UnmarshalRegistrationRequestJSON doc
        = Except.ok (RegistrationRequest.mk [117, 115, 101, 114, 110, 97, 109, 101]
            (List.replicate 32 7))) ∧
    (∃ doc, (CredentialRequest.mk [117, 115, 101, 114, 110, 97, 109, 101]
          (List.replicate 32 7)).MarshalJSON = Except.ok doc ∧
      UnmarshalCredentialRequestJSON doc
        = Except.ok (CredentialRequest.mk [117, 115, 101, 114, 110, 97, 109, 101]
            (List.replicate 32 7))) :=
  request_json_roundtrip
    (RegistrationRequest.mk [117, 115, 101, 114, 110, 97, 109, 101] (List.replicate 32 7))
    (CredentialRequest.mk [117, 115, 101, 114, 110, 97, 109, 101] (List.replicate 32 7))

/-- C15. Interchange round trip of the envelope-bearing messages: for a
RegistrationUpload with an envelope and a client public key whose PKIX
serialization parses back to it, and for a CredentialResponse with an envelope
and a server public key likewise, `MarshalJSON` returns a document from which
the matching `Unmarshal...JSON` function returns the original: the four
envelope fields each in its own field, the key, and the OPRF data. -/
theorem envelope_messages_json_roundtrip {Key : Type} (P : PKIX Key) (oprfData : Bytes)
    (env : Envelope) (k : Key) (s : Bytes)
    (hs : P.marshal k = Except.ok s) (hparse : P.parse s = Except.ok k) :
    (∃ doc, (RegistrationUpload.mk (some env) (some k)).MarshalJSON P
        = some (Except.ok doc) ∧
      UnmarshalRegistrationUploadJSON P doc
        = Except.ok (RegistrationUpload.mk (some env) (some k))) ∧
    (∃ doc, (CredentialResponse.mk oprfData (some env) (some k)).MarshalJSON P
        = some (Except.ok doc) ∧
      UnmarshalCredentialResponseJSON P doc
        = Except.ok (CredentialResponse.mk oprfData (some env) (some k)) ∧
      ∃ members, doc = JSONDoc.object members ∧
        jsonField members "Nonce" = env.Nonce ∧
        jsonField members "EncryptedCreds" = env.EncryptedCreds ∧
        jsonField members "AuthenticatedCreds" = env.AuthenticatedCreds ∧
        jsonField members "AuthTag" = env.AuthTag) := by
  constructor
  · refine ⟨JSONDoc.object [("UserPublicKey", s), ("Nonce", env.Nonce),
      ("EncryptedCreds", env.EncryptedCreds),
      ("AuthenticatedCreds", env.AuthenticatedCreds), ("AuthTag", env.AuthTag)], ?_, ?_⟩
    · simp only [RegistrationUpload.MarshalJSON, MarshalPKIXPublicKey, hs, jsonMarshal]
    · have f1 : jsonField [("UserPublicKey", s), ("Nonce", env.Nonce),
          ("EncryptedCreds", env.EncryptedCreds),
          ("AuthenticatedCreds", env.AuthenticatedCreds), ("AuthTag", env.AuthTag)]
          "UserPublicKey" = s := rfl
      simp only [UnmarshalRegistrationUploadJSON, jsonUnmarshal, f1, hparse]
      rfl
  · refine ⟨JSONDoc.object [("OprfData", oprfData), ("Nonce", env.Nonce),
      ("EncryptedCreds", env.EncryptedCreds),
      ("AuthenticatedCreds", env.AuthenticatedCreds), ("AuthTag", env.AuthTag),
      ("ServerPublicKey", s)], ?_, ?_, _, rfl, rfl, rfl, rfl, rfl⟩
    · simp only [CredentialResponse.MarshalJSON, MarshalPKIXPublicKey, hs, jsonMarshal]
    · have f1 : jsonField [("OprfData", oprfData), ("Nonce", env.Nonce),
          ("EncryptedCreds", env.EncryptedCreds),
          ("AuthenticatedCreds", env.AuthenticatedCreds), ("AuthTag", env.AuthTag),
          ("ServerPublicKey", s)] "ServerPublicKey" = s := rfl
      simp only [UnmarshalCredentialResponseJSON, jsonUnmarshal, f1, hparse]
      rfl

/-- Witness of C15: an envelope with four different fields and the sample key
`[5]`. -/
theorem envelope_messages_json_roundtrip_witness :
    (∃ doc, (RegistrationUpload.mk (some (Envelope.mk [1] [2, 2] [3] [4]))
          (some [5])).MarshalJSON samplePKIX = some (Except.ok doc) ∧
      UnmarshalRegistrationUploadJSON samplePKIX doc
        = Except.ok (RegistrationUpload.mk (some (Envelope.mk [1] [2, 2] [3] [4]))
            (some [5]))) ∧
    (∃ doc, (CredentialResponse.mk [9] (some (Envelope.mk [1] [2, 2] [3] [4]))
          (some [5])).MarshalJSON samplePKIX = some (Except.ok doc) ∧
      UnmarshalCredentialResponseJSON samplePKIX doc
        = Except.ok (CredentialResponse.mk [9] (some (Envelope.mk [1] [2, 2] [3] [4]))
            (some [5]))) :=
  ⟨(envelope_messages_json_roundtrip samplePKIX [9] (Envelope.mk [1] [2, 2] [3] [4]) [5]
      [48, 5] rfl rfl).1,
    ((envelope_messages_json_roundtrip samplePKIX [9] (Envelope.mk [1] [2, 2] [3] [4]) [5]
      [48, 5] rfl rfl).2).imp (fun _ h => ⟨h.1, h.2.1⟩)⟩

/-- C16. Cross-codec equivalence: for a CredentialRequest within the length
bounds, decoding its interchange encoding and decoding its binary encoding
both succeed and give the same value, equal to the original. -/
theorem credentialRequest_cross_codec (v : CredentialRequest)
    (hu : v.UserID.length ≤ 65535) (ho1 : 1 ≤ v.OprfData.length)
    (ho2 : v.OprfData.length ≤ 65535) :
    ∃ doc enc a b n, v.MarshalJSON = Except.ok doc ∧
      UnmarshalCredentialRequestJSON doc = Except.ok a ∧
      v.Marshal = Except.ok enc ∧
      CredentialRequest.Unmarshal enc = Except.ok (b, n) ∧
      a = b ∧ a.UserID = v.UserID ∧ a.OprfData = v.OprfData := by
  have hb := credentialRequest_unmarshal_append v [] hu ho1 ho2
  rw [List.append_nil] at hb
  exact ⟨_, _, v, v, _, rfl, rfl, credentialRequest_marshal_ok v hu ho1 ho2, hb, rfl, rfl, rfl⟩

/-- Witness of C16: the request of "alice" with 32 bytes of OPRF data. -/
theorem credentialRequest_cross_codec_witness :
    ∃ doc enc a b n,
      (CredentialRequest.mk [97, 108, 105, 99, 101] (List.replicate 32 7)).MarshalJSON
        = Except.ok doc ∧
      UnmarshalCredentialRequestJSON doc = Except.ok a ∧
      (CredentialRequest.mk [97, 108, 105, 99, 101] (List.replicate 32 7)).Marshal
        = Except.ok enc ∧
      CredentialRequest.Unmarshal enc = Except.ok (b, n) ∧
      a = b ∧ a.UserID = [97, 108, 105, 99, 101] ∧ a.OprfData = List.replicate 32 7 :=
  credentialRequest_cross_codec
    (CredentialRequest.mk [97, 108, 105, 99, 101] (List.replicate 32 7))
    (by decide) (by decide) (by decide)

/-! ## Errors: chain search, text, serialization -/

/-- For a sentinel target `errors.Is` never panics and holds exactly when the
sentinel occurs in the error value. -/
theorem errorsIs_sentinel (w : GoError) (t : Error) :
    errorsIs w (GoError.sentinel t) = some (decide (t ∈ w.sentinels)) := by
  induction w with
  | sentinel e =>
    by_cases h : e = t
    · subst h
      simp [errorsIs, GoError.sentinels]
    · have h2 : ¬ t = e := fun h3 => h h3.symm
      simp [errorsIs, Error.Is, GoError.sentinels, h, h2]
  | withError cause err ih1 ih2 =>
    by_cases h1 : t ∈ cause.sentinels
    · simp [errorsIs, GoError.sentinels, ih1, h1]
    · by_cases h2 : t ∈ err.sentinels
      · simp [errorsIs, GoError.sentinels, ih1, ih2, h1, h2]
      · simp [errorsIs, GoError.sentinels, ih1, ih2, h1, h2]
  | withStack inner ih => simp [errorsIs, GoError.sentinels, ih]
  | withMessage cause msg ih => simp [errorsIs, GoError.sentinels, ih]
  | foreign text => simp [errorsIs, GoError.sentinels]

/-- Nested wrapping of a non-nil cause gives a non-nil error whose sentinels
are those of the wrappers and those of the cause. -/
theorem wrapAll_sentinels (es : List Error) (c : GoError) :
    ∃ w, wrapAll es c = some w ∧ ∀ t, t ∈ w.sentinels ↔ (t ∈ es ∨ t ∈ c.sentinels) := by
  induction es with
  | nil => exact ⟨c, rfl, fun t => by simp⟩
  | cons e es ih =>
    obtain ⟨w, hw, hmem⟩ := ih
    refine ⟨GoError.withStack (GoError.withError w (GoError.sentinel e)), ?_, ?_⟩
    · simp only [wrapAll, hw, Error.Wrap, errorsWithStack]
    · intro t
      simp only [GoError.sentinels, List.mem_append, hmem, List.mem_singleton,
        List.mem_cons]
      tauto

/-- The library wrapper made by `Wrap` is serialized as the code of its own
sentinel. -/
theorem marshalErrorAsJSON_wrap (e : Error) (c : GoError) :
    MarshalErrorAsJSON (Error.Wrap e (some c)) = Except.ok (jsonMarshalError e) := rfl

/-- C17. `errors.Is` finds a sentinel anywhere in the chain: for a non-nil root
cause `c` wrapped under sentinels `e1 .. en`, `errors.Is` holds for every
`ei`, holds for `c` when `c` is a sentinel, and is false for a sentinel
that is none of the `ei` and does not occur in `c`. -/
theorem errorsIs_finds_sentinel_in_chain (es : List Error) (c : GoError) :
    ∃ w, wrapAll es c = some w ∧
      (∀ e, e ∈ es → errorsIs w (GoError.sentinel e) = some true) ∧
      (∀ t, c = GoError.sentinel t → errorsIs w c = some true) ∧
      (∀ t, t ∉ es → t ∉ c.sentinels → errorsIs w (GoError.sentinel t) = some false) := by
  obtain ⟨w, hw, hmem⟩ := wrapAll_sentinels es c
  refine ⟨w, hw, ?_, ?_, ?_⟩
  · intro e he
    rw [errorsIs_sentinel, decide_eq_true ((hmem e).mpr (Or.inl he))]
  · intro t ht
    subst ht
    rw [errorsIs_sentinel, decide_eq_true ((hmem t).mpr (Or.inr (by simp [GoError.sentinels])))]
  · intro t h1 h2
    have h3 : ¬ t ∈ w.sentinels := fun h => ((hmem t).mp h).elim h1 h2
    rw [errorsIs_sentinel, decide_eq_false h3]

/-- Witness of C17: `ErrorBadEnvelope` is found in
`ErrorBadEnvelope.Wrap(lowLevelParseFailure)`, both sentinels are found under
two wrappers of a sentinel cause, and a sentinel that was not used is not
found. -/
theorem errorsIs_finds_sentinel_in_chain_witness :
    (∃ w, Error.Wrap ErrorBadEnvelope (some (GoError.foreign "unexpected EOF")) = some w ∧
      errorsIs w (GoError.sentinel ErrorBadEnvelope) = some true ∧
      errorsIs w (GoError.sentinel ErrorNotFound) = some false) ∧
    (∃ w, wrapAll [ErrorUnexpectedData, ErrorBadEnvelope] (GoError.sentinel ErrorNotFound)
        = some w ∧
      errorsIs w (GoError.sentinel ErrorBadEnvelope) = some true ∧
      errorsIs w (GoError.sentinel ErrorNotFound) = some true) := by
  obtain ⟨w1, h1, a1, _, c1⟩ :=
    errorsIs_finds_sentinel_in_chain [ErrorBadEnvelope] (GoError.foreign "unexpected EOF")
  obtain ⟨w2, h2, a2, b2, _⟩ :=
    errorsIs_finds_sentinel_in_chain [ErrorUnexpectedData, ErrorBadEnvelope]
      (GoError.sentinel ErrorNotFound)
  refine ⟨⟨w1, h1, a1 _ (by simp), c1 ErrorNotFound (by decide) (by simp [GoError.sentinels])⟩,
    ⟨w2, h2, a2 _ (by simp), b2 ErrorNotFound rfl⟩⟩

/-- C18. String form of a wrapped error: for every sentinel `e` and non-nil
cause `c`, `e.Wrap(c).Error()` is `e.Error()`, then `": "`, then `c.Error()`,
where `e.Error()` is what the text table gives for `e`. -/
theorem wrap_error_text (e : Error) (c : GoError) :
    ∃ w, Error.Wrap e (some c) = some w ∧
      w.Error = Error.Error e ++ ": " ++ c.Error ∧
      Error.Error e = alertToString e :=
  ⟨_, rfl, rfl, rfl⟩

/-- Witness of C18: the text of `ErrorBadEnvelope.Wrap` of a cause whose text
is `unexpected EOF`. -/
theorem wrap_error_text_witness :
    ∃ w, Error.Wrap ErrorBadEnvelope (some (GoError.foreign "unexpected EOF")) = some w ∧
      w.Error = "decrypt envelope failed: unexpected EOF" := by
  obtain ⟨w, h1, h2, _⟩ := wrap_error_text ErrorBadEnvelope (GoError.foreign "unexpected EOF")
  exact ⟨w, h1, by rw [h2]; decide⟩

/-- Counterexample to C19: `ErrorBadEnvelope.Wrap(ErrorNotFound)` is serialized
as `8`, the code of the outer `ErrorBadEnvelope`, not as `9`, the code of the
inner `ErrorNotFound`. -/
theorem marshalErrorAsJSON_not_innermost :
    MarshalErrorAsJSON (Error.Wrap ErrorBadEnvelope (some (GoError.sentinel ErrorNotFound)))
        = Except.ok "8" ∧
      jsonMarshalError ErrorNotFound = "9" ∧
      MarshalErrorAsJSON (Error.Wrap ErrorBadEnvelope (some (GoError.sentinel ErrorNotFound)))
        ≠ Except.ok (jsonMarshalError ErrorNotFound) := by
  refine ⟨by decide, by decide, by decide⟩

/-- C19, amended. `MarshalErrorAsJSON` emits the code of the latest library
error: for sentinels `e1`, `e2`, `e3`, both `e1.Wrap(e2)` and
`e1.Wrap(e2.Wrap(e3))` are serialized as the code of `e1`; the cause chain is
walked only through wrappers that are not the library's, so `errors.Wrapf` of
a sentinel is serialized as that sentinel's code. -/
theorem marshalErrorAsJSON_latest_sentinel (e1 e2 e3 : Error) (msg : String) :
    MarshalErrorAsJSON (Error.Wrap e1 (some (GoError.sentinel e2)))
      = Except.ok (jsonMarshalError e1) ∧
    MarshalErrorAsJSON (Error.Wrap e1 (Error.Wrap e2 (some (GoError.sentinel e3))))
      = Except.ok (jsonMarshalError e1) ∧
    MarshalErrorAsJSON (some (errorsWrapf (GoError.sentinel e3) msg))
      = Except.ok (jsonMarshalError e3) :=
  ⟨rfl, rfl, rfl⟩

/-- C20. Error serialization does not leak the cause: for every sentinel `e`
and any two non-nil causes, `MarshalErrorAsJSON` of `e.Wrap` of either
succeeds with the same output, the JSON number of `e`; for `ErrorBadEnvelope`
that is `8`. -/
theorem marshalErrorAsJSON_hides_cause (e : Error) (c1 c2 : GoError) :
    MarshalErrorAsJSON (Error.Wrap e (some c1)) = Except.ok (jsonMarshalError e) ∧
    MarshalErrorAsJSON (Error.Wrap e (some c2)) = Except.ok (jsonMarshalError e) ∧
    MarshalErrorAsJSON (Error.Wrap e (some c1)) = MarshalErrorAsJSON (Error.Wrap e (some c2)) ∧
    jsonMarshalError e = Nat.repr e.val ∧
    jsonMarshalError ErrorBadEnvelope = "8" :=
  ⟨marshalErrorAsJSON_wrap e c1, marshalErrorAsJSON_wrap e c2,
    (marshalErrorAsJSON_wrap e c1).trans (marshalErrorAsJSON_wrap e c2).symm, rfl, by decide⟩

/-- Witness of C20: two causes with different texts under `ErrorBadEnvelope`
both give `8`. -/
theorem marshalErrorAsJSON_hides_cause_witness :
    MarshalErrorAsJSON (Error.Wrap ErrorBadEnvelope (some (GoError.foreign "unexpected EOF")))
      = Except.ok "8" ∧
    MarshalErrorAsJSON (Error.Wrap ErrorBadEnvelope
        (some (GoError.foreign "asn1: structure error: password=hunter2")))
      = Except.ok "8" := by
  have h := marshalErrorAsJSON_hides_cause ErrorBadEnvelope (GoError.foreign "unexpected EOF")
    (GoError.foreign "asn1: structure error: password=hunter2")
  rw [h.2.2.2.2] at h
  exact ⟨h.1, h.2.1⟩

/-! ## Errors: fallback code, text of the unrecognized-message error -/

/-- An error value that holds no library error is serialized as the code of
`ErrorOtherError`. -/
theorem marshalErrorAsJSONGo_noLibraryError (t : GoError) (h : t.noLibraryError = true) :
    marshalErrorAsJSONGo t = Except.ok (jsonMarshalError ErrorOtherError) := by
  induction t with
  | sentinel e => simp [GoError.noLibraryError] at h
  | withError cause err _ _ => simp [GoError.noLibraryError] at h
  | withStack inner ih =>
    simp only [GoError.noLibraryError] at h
    simp only [marshalErrorAsJSONGo, ih h]
  | withMessage cause msg ih =>
    simp only [GoError.noLibraryError] at h
    simp only [marshalErrorAsJSONGo, ih h]
  | foreign text => rfl

/-- C21. Fallback to the generic code: for every error that is neither a
library Error nor a library wrapper and whose Cause chain, when it has one,
ends in such an error, and for the nil error, `MarshalErrorAsJSON` succeeds
and returns the JSON encoding of the code of `ErrorOtherError`, which is
`10`. -/
theorem marshalErrorAsJSON_fallback (t : GoError) (h : t.noLibraryError = true) :
    MarshalErrorAsJSON (some t) = Except.ok (jsonMarshalError ErrorOtherError) ∧
    MarshalErrorAsJSON none = Except.ok (jsonMarshalError ErrorOtherError) ∧
    jsonMarshalError ErrorOtherError = "10" :=
  ⟨marshalErrorAsJSONGo_noLibraryError t h, rfl, by decide⟩

/-- Witness of C21: an error of `fmt.Errorf` under `errors.Wrapf`, and the nil
error, are both serialized as `10`. -/
theorem marshalErrorAsJSON_fallback_witness :
    MarshalErrorAsJSON (some (errorsWrapf (GoError.foreign "unexpected EOF") "read header"))
      = Except.ok "10" ∧
    MarshalErrorAsJSON none = Except.ok "10" := by
  have h := marshalErrorAsJSON_fallback
    (errorsWrapf (GoError.foreign "unexpected EOF") "read header") rfl
  rw [h.2.2] at h
  exact ⟨h.1, h.2.1⟩

/-- C22, as the code behaves. For every message whose tag is none of 1..5 the
error returned by `ToBody` has the text `message type : unrecognized message`:
`%s` prints the tag through `ProtocolMessageType.String`, which is empty for
every tag outside the table, so the text does not show the tag and is the
same for all unrecognized tags. -/
theorem toBody_error_text_omits_tag (Key : Type) (m : ProtocolMessage)
    (h : ¬ (m.MessageType = 1 ∨ m.MessageType = 2 ∨ m.MessageType = 3 ∨
      m.MessageType = 4 ∨ m.MessageType = 5)) :
    ∃ e, (m.ToBody : Except GoError (ProtocolMessageBody Key)) = Except.error e ∧
      e.Error = "message type : unrecognized message" := by
  simp only [not_or] at h
  obtain ⟨h1, h2, h3, h4, h5⟩ := h
  refine ⟨errorsWrapf (GoError.sentinel ErrorUnrecognizedMessage) "message type ", ?_, ?_⟩
  · simp [ProtocolMessage.ToBody, ProtocolMessageType.String,
      ProtocolMessageTypeRegistrationRequest, ProtocolMessageTypeRegistrationResponse,
      ProtocolMessageTypeRegistrationUpload, ProtocolMessageTypeCredentialRequest,
      ProtocolMessageTypeCredentialResponse, h1, h2, h3, h4, h5]
  · decide

/-- The failing input of C22 evaluated: the errors for the tags 0 and 6 have
the same text. -/
theorem toBody_error_text_omits_tag_witness :
    ∃ e0 e6, ((ProtocolMessage.mk 0 []).ToBody : Except GoError (ProtocolMessageBody Unit))
        = Except.error e0 ∧
      ((ProtocolMessage.mk 6 []).ToBody : Except GoError (ProtocolMessageBody Unit))
        = Except.error e6 ∧
      e0.Error = "message type : unrecognized message" ∧ e0.Error = e6.Error := by
  obtain ⟨e0, h0, t0⟩ := toBody_error_text_omits_tag Unit (ProtocolMessage.mk 0 [])
    (by decide)
  obtain ⟨e6, h6, t6⟩ := toBody_error_text_omits_tag Unit (ProtocolMessage.mk 6 [])
    (by decide)
  exact ⟨e0, e6, h0, h6, t0, t0.trans t6.symm⟩

/-! ## Errors: `Error.Is` off sentinel targets -/

/-- Method `Error.Is` panics on every target that is not a sentinel. -/
theorem error_is_none_of_not_sentinel (e : Error) (t : GoError)
    (hns : ∀ s, t ≠ GoError.sentinel s) : Error.Is e t = none := by
  cases t with
  | sentinel s => exact absurd rfl (hns s)
  | withError a b => rfl
  | withStack a => rfl
  | withMessage a b => rfl
  | foreign a => rfl

/-- Function `errors.Is` of a sentinel against a target that is not a sentinel
panics: the two are not equal and the sentinel's `Is` method is called. -/
theorem errorsIs_sentinel_panics (e : Error) (t : GoError)
    (hns : ∀ s, t ≠ GoError.sentinel s) : errorsIs (GoError.sentinel e) t = none := by
  have hne : ¬ GoError.sentinel e = t := fun h => hns e h.symm
  rw [errorsIs, if_neg hne, error_is_none_of_not_sentinel e t hns]

/-- On the error values of the closed model, where to be the same error is to
be equal, `errorsIsWrap` is `errorsIs` of the wrapped error. -/
theorem errorsIs_wrap_eq (e : Error) (c t : GoError) :
    errorsIs (GoError.withStack (GoError.withError c (GoError.sentinel e))) t
      = errorsIsWrap e t
          (decide (GoError.withStack (GoError.withError c (GoError.sentinel e)) = t))
          (decide (GoError.withError c (GoError.sentinel e) = t))
          (errorsIs c t) := by
  by_cases h1 : GoError.withStack (GoError.withError c (GoError.sentinel e)) = t
  · rw [errorsIs, if_pos h1]
    simp [errorsIsWrap, h1]
  · by_cases h2 : GoError.withError c (GoError.sentinel e) = t
    · rw [errorsIs, if_neg h1, errorsIs, if_pos h2]
      simp [errorsIsWrap, h1, h2]
    · rw [errorsIs, if_neg h1, errorsIs, if_neg h2]
      simp only [errorsIsWrap, h1, h2, decide_False, Bool.false_eq_true, if_false]

/-- Counterexample to C24: the wrapped error itself is a non-sentinel error
that does not occur in the chain of the cause, and `errors.Is` of the wrapped
error against itself returns true: it does not panic. -/
theorem errorsIs_wrap_self_no_panic :
    Error.Wrap ErrorBadEnvelope (some (GoError.foreign "unexpected EOF"))
        = some (GoError.withStack (GoError.withError (GoError.foreign "unexpected EOF")
            (GoError.sentinel ErrorBadEnvelope))) ∧
      GoError.withStack (GoError.withError (GoError.foreign "unexpected EOF")
          (GoError.sentinel ErrorBadEnvelope))
        ∉ (GoError.foreign "unexpected EOF").nodes ∧
      errorsIs
          (GoError.withStack (GoError.withError (GoError.foreign "unexpected EOF")
            (GoError.sentinel ErrorBadEnvelope)))
          (GoError.withStack (GoError.withError (GoError.foreign "unexpected EOF")
            (GoError.sentinel ErrorBadEnvelope)))
        = some true ∧
      errorsIs
          (GoError.withStack (GoError.withError (GoError.foreign "unexpected EOF")
            (GoError.sentinel ErrorBadEnvelope)))
          (GoError.withStack (GoError.withError (GoError.foreign "unexpected EOF")
            (GoError.sentinel ErrorBadEnvelope)))
        ≠ none := by
  refine ⟨rfl, by decide, by decide, by decide⟩

/-- C24, amended. `Error.Is` is only defined on sentinel targets: on a target
that is a library Error it returns true exactly when the two are equal; on
any other target, the nil interface included, it panics. So for a target `t`
that is not a sentinel, `errors.Is(e.Wrap(c), t)` never returns false: it
returns true exactly when `t` is the wrapped error itself, or the wrapper
inside it, or `errors.Is(c, t)` is true, and it panics in every other case,
that is when the target is neither of the two and `errors.Is(c, t)` is false
or panics. This holds for a cause of any error type, with its own `Is` or
`Unwrap` methods or none. -/
theorem errorsIs_wrap_true_or_panics (e : Error) (t : GoError)
    (hns : ∀ s, t ≠ GoError.sentinel s) (sameAsWrapped sameAsWrapper : Bool)
    (causeIs : Option Bool) :
    (∀ s, Error.Is e (GoError.sentinel s) = some (decide (e = s))) ∧
    Error.Is e t = none ∧
    Error.IsInterface e none = none ∧
    errorsIsWrap e t sameAsWrapped sameAsWrapper causeIs ≠ some false ∧
    (errorsIsWrap e t sameAsWrapped sameAsWrapper causeIs = some true ↔
      (sameAsWrapped = true ∨ sameAsWrapper = true ∨ causeIs = some true)) ∧
    (errorsIsWrap e t sameAsWrapped sameAsWrapper causeIs = none ↔
      (sameAsWrapped = false ∧ sameAsWrapper = false ∧ causeIs ≠ some true)) := by
  have hs := errorsIs_sentinel_panics e t hns
  refine ⟨fun s => rfl, error_is_none_of_not_sentinel e t hns, rfl, ?_, ?_, ?_⟩
  · cases sameAsWrapped <;> cases sameAsWrapper <;> rcases causeIs with _ | _ | _ <;>
      simp [errorsIsWrap, hs]
  · cases sameAsWrapped <;> cases sameAsWrapper <;> rcases causeIs with _ | _ | _ <;>
      simp [errorsIsWrap, hs]
  · cases sameAsWrapped <;> cases sameAsWrapper <;> rcases causeIs with _ | _ | _ <;>
      simp [errorsIsWrap, hs]

/-- Witness of C24, amended: against a target that is another error with the
text of the cause, for which the search of the cause is false, `errors.Is` of
`ErrorBadEnvelope.Wrap` panics; against a target that the cause's own `Is`
method accepts, `errors.Is` of `ErrorNotFound.Wrap` is true. -/
theorem errorsIs_wrap_true_or_panics_witness :
    errorsIsWrap ErrorBadEnvelope (GoError.foreign "unexpected EOF") false false (some false)
      = none ∧
    errorsIsWrap ErrorNotFound (GoError.foreign "file does not exist") false false (some true)
      = some true :=
  ⟨(errorsIs_wrap_true_or_panics ErrorBadEnvelope (GoError.foreign "unexpected EOF")
      (fun s h => by cases h) false false (some false)).2.2.2.2.2.mpr
      ⟨rfl, rfl, by decide⟩,
    (errorsIs_wrap_true_or_panics ErrorNotFound (GoError.foreign "file does not exist")
      (fun s h => by cases h) false false (some true)).2.2.2.2.1.mpr
      (Or.inr (Or.inr rfl))⟩

/-! ## CredentialRequest: the encoding is canonical -/

namespace Mint

/-- What a successful decoding of a field with a two-byte header implies: the
input is the header of the length of the field, the field, and the rest. -/
theorem decodeSlice_two_inv (mn : Nat) (d data rest : Bytes)
    (hok : decodeSlice ⟨2, mn, 0⟩ d = Except.ok (data, rest)) :
    d = putLength 2 data.length ++ data ++ rest ∧ data.length < 65536 ∧
      mn ≤ data.length := by
  match d, hok with
  | [], hok => simp [decodeSlice] at hok
  | [a], hok => simp [decodeSlice] at hok
  | a :: b :: d2, hok =>
    have hval : getLength [a, b] = a.val * 256 + b.val := by
      simp only [getLength, List.foldl_cons, List.foldl_nil, Nat.shiftLeft_eq]
      omega
    unfold decodeSlice at hok
    simp only [List.take_succ_cons, List.take_zero, List.length_cons, List.length_nil,
      List.drop_succ_cons, List.drop_zero, hval] at hok
    rw [if_neg (by decide), if_neg (by simp), if_neg (by simp)] at hok
    by_cases hmin : a.val * 256 + b.val < mn
    · rw [if_pos hmin] at hok; cases hok
    rw [if_neg hmin] at hok
    by_cases hl : (List.take (a.val * 256 + b.val) d2).length ≠ a.val * 256 + b.val
    · rw [if_pos hl] at hok; cases hok
    rw [if_neg hl] at hok
    injection hok with hok
    injection hok with hdata hrest
    simp only [ne_eq, not_not] at hl
    have hlen : data.length = a.val * 256 + b.val := by
      rw [← hdata]; exact hl
    have ha := a.isLt
    have hb := b.isLt
    refine ⟨?_, by omega, by omega⟩
    have hput : putLength 2 data.length = [a, b] := by
      simp only [putLength, Nat.shiftRight_eq_div_pow, hlen, byteOf]
      have e1 : (a.val * 256 + b.val) / 2 ^ (8 * 1) % 256 = a.val := by norm_num; omega
      have e2 : (a.val * 256 + b.val) / 2 ^ (8 * 0) % 256 = b.val := by norm_num; omega
      simp only [e1, e2]
    rw [hput, ← hdata, ← hrest]
    simp [List.take_append_drop]

end Mint

/-- What a successful `CredentialRequest.Unmarshal` implies: the input starts
with the encoding of the value, the bytes read are the length of that
encoding, and the value is within the length bounds. -/
theorem credentialRequest_unmarshal_inv (d : Bytes) (v : CredentialRequest) (n : Nat)
    (h : CredentialRequest.Unmarshal d = Except.ok (v, n)) :
    ∃ rest, d = Mint.putLength 2 v.UserID.length ++ v.UserID
        ++ (Mint.putLength 2 v.OprfData.length ++ v.OprfData) ++ rest ∧
      n = (Mint.putLength 2 v.UserID.length ++ v.UserID
        ++ (Mint.putLength 2 v.OprfData.length ++ v.OprfData)).length ∧
      v.UserID.length ≤ 65535 ∧ 1 ≤ v.OprfData.length ∧ v.OprfData.length ≤ 65535 := by
  unfold CredentialRequest.Unmarshal at h
  cases h1 : Mint.decodeSlice ⟨2, 0, 0⟩ d with
  | error e => rw [h1] at h; cases h
  | ok p1 =>
    obtain ⟨userID, r1⟩ := p1
    cases h2 : Mint.decodeSlice ⟨2, 1, 0⟩ r1 with
    | error e => rw [h1] at h; simp only [bind, Except.bind] at h; rw [h2] at h; cases h
    | ok p2 =>
      obtain ⟨oprfData, r2⟩ := p2
      rw [h1] at h
      simp only [bind, Except.bind] at h
      rw [h2] at h
      simp only [pure, Except.pure] at h
      injection h with h
      injection h with hv hn
      subst hv
      obtain ⟨i1, i2, _⟩ := Mint.decodeSlice_two_inv 0 d userID r1 h1
      obtain ⟨j1, j2, j3⟩ := Mint.decodeSlice_two_inv 1 r1 oprfData r2 h2
      refine ⟨r2, ?_, ?_, by simp only; omega, j3, by simp only; omega⟩
      · simp only
        rw [i1, j1]
        simp only [List.append_assoc]
      · rw [← hn, i1, j1]
        simp only [List.length_append, Mint.putLength_length]
        omega

/-- C23. The CredentialRequest binary encoding is canonical: when `Unmarshal`
of a byte string `d` succeeds with value `v` and `n` bytes consumed, then
`n ≤ len(d)`, `v` is within the length bounds, `v.Marshal()` succeeds and is
the first `n` bytes of `d`; hence any byte string that decodes to the same
value consumes the same `n` bytes and has the same first `n` bytes, and two
byte strings of length `n` that decode to the same value are equal. -/
theorem credentialRequest_encoding_canonical (d : Bytes) (v : CredentialRequest) (n : Nat)
    (h : CredentialRequest.Unmarshal d = Except.ok (v, n)) :
    n ≤ d.length ∧
    (v.UserID.length ≤ 65535 ∧ 1 ≤ v.OprfData.length ∧ v.OprfData.length ≤ 65535) ∧
    v.Marshal = Except.ok (d.take n) ∧
    (∀ d2 n2, CredentialRequest.Unmarshal d2 = Except.ok (v, n2) →
      n2 = n ∧ d2.take n = d.take n ∧ (d2.length = n → d.length = n → d2 = d)) := by
  obtain ⟨rest, hd, hn, b1, b2, b3⟩ := credentialRequest_unmarshal_inv d v n h
  have htake : d.take n = Mint.putLength 2 v.UserID.length ++ v.UserID
      ++ (Mint.putLength 2 v.OprfData.length ++ v.OprfData) := by
    rw [hd, hn]; exact List.take_left _ _
  refine ⟨?_, ⟨b1, b2, b3⟩, ?_, ?_⟩
  · rw [hd, hn]; simp only [List.length_append]; omega
  · rw [htake]; exact credentialRequest_marshal_ok v b1 b2 b3
  · intro d2 n2 h2
    obtain ⟨rest2, hd2, hn2, _, _, _⟩ := credentialRequest_unmarshal_inv d2 v n2 h2
    have hnn : n2 = n := by rw [hn2, hn]
    have htake2 : d2.take n = Mint.putLength 2 v.UserID.length ++ v.UserID
        ++ (Mint.putLength 2 v.OprfData.length ++ v.OprfData) := by
      rw [hd2, hn]; exact List.take_left _ _
    refine ⟨hnn, htake2.trans htake.symm, ?_⟩
    intro l2 l1
    have t1 : d.take n = d := List.take_of_length_le (by omega)
    have t2 : d2.take n = d2 := List.take_of_length_le (by omega)
    rw [← t1, ← t2]
    exact htake2.trans htake.symm

/-- Witness of C23: an input with two trailing bytes decodes with 8 bytes
consumed, and the value marshals to its first 8 bytes. -/
theorem credentialRequest_encoding_canonical_witness :
    CredentialRequest.Unmarshal [0, 3, 1, 2, 3, 0, 1, 9, 7, 7]
        = Except.ok (CredentialRequest.mk [1, 2, 3] [9], 8) ∧
      (CredentialRequest.mk [1, 2, 3] [9]).Marshal
        = Except.ok (List.take 8 [0, 3, 1, 2, 3, 0, 1, 9, 7, 7]) :=
  ⟨rfl, (credentialRequest_encoding_canonical [0, 3, 1, 2, 3, 0, 1, 9, 7, 7]
    (CredentialRequest.mk [1, 2, 3] [9]) 8 rfl).2.2.1⟩

end OpaqueCore
